import Mathlib

/-!
# ESP8266 AT driver: transaction engine, +IPD frame decoder, receive ring buffer

A shallow embedding of `Core/Src/esp8266.c` (`send_at_cmd`, `recv_data`,
`esp8266_recv_data`, `esp8266_joint_ap`, `esp8266_get_ip`,
`esp8266_close_connection`, `esp8266_send_data`, `catch_incoming_message`) and `Core/Src/esp8266_io.c` (`esp8266_io_init`,
`esp8266_io_recv`, `HAL_UARTEx_RxEventCallback`), followed by theorems about them.

Conventions of the embedding:

* a byte is a `Nat` (its value, `< 256` for real bytes); C strings are lists of bytes;
* a fixed-size `char` array is a `List Nat` of that size, `memset(a, 0, N)` is
  `List.replicate N 0`, and `a[k] = c` is `List.set a k c`;
* `uint32_t` and `uint8_t` counters are `Nat` with an explicit `% 2^32` or `% 256`
  where the C arithmetic can wrap;
* the transport, as `send_at_cmd` and `recv_data` see it through
  `esp8266_io_recv(&RxChar, 1)`, is the list of bytes that the successive calls
  will deliver; once the list is empty every call times out and returns 0,
  leaving `RxChar` untouched;
* a `while (1)` loop that reads one byte per iteration and leaves when none
  arrives is a structural recursion on the transport; the loops of `recv_data`,
  whose inner `do ... while` ignores the result of the read, take a fuel
  argument, one unit per iteration, and return `none` when it runs out;
* `send_at_cmd` is also given on a transport that may deliver bytes for ever, as
  the outcome of each successive call of `esp8266_io_recv`, again with fuel;
* a function whose body can dereference a pointer made from a `NULL` result
  returns an `Option`, `none` standing for that undefined step.
-/

namespace Esp8266

/-! ## Constants of `esp8266.h` -/

def MAX_AT_CMD_SIZE : Nat := 256

def MAX_BUFFER_SIZE : Nat := 1024 * 8

/-- The bytes of `"OK\r\n"`. -/
def AT_OK_STRING : List Nat := [79, 75, 13, 10]

/-- The bytes of `"CONNECT\r\n"`. -/
def AT_CONNECT_STRING : List Nat := [67, 79, 78, 78, 69, 67, 84, 13, 10]

/-- The bytes of `"OK\r\n\r\n"`. -/
def AT_IPD_OK_STRING : List Nat := [79, 75, 13, 10, 13, 10]

/-- The bytes of `"SEND OK\r\n"`. -/
def AT_SEND_OK_STRING : List Nat := [83, 69, 78, 68, 32, 79, 75, 13, 10]

/-- The bytes of `"OK\r\n\r\n>"`. -/
def AT_SEND_PROMPT_STRING : List Nat := [79, 75, 13, 10, 13, 10, 62]

/-- The bytes of `"ERROR\r\n"`. -/
def AT_ERROR_STRING : List Nat := [69, 82, 82, 79, 82, 13, 10]

/-- The bytes of `"+IPD,"`. -/
def AT_IPD_STRING : List Nat := [43, 73, 80, 68, 44]

/-- The status codes of `esp8266_status_t`, in the order of the enumeration. -/
inductive esp8266_status_t where
  | ESP8266_OK
  | ESP8266_ERROR
  | ESP8266_BUSY
  | ESP8266_ALREADY_CONNECTED
  | ESP8266_CONNECTION_CLOSED
  | ESP8266_TIMEOUT
  | ESP8266_IO_ERROR
  deriving DecidableEq, Repr

open esp8266_status_t

/-- The numeric value of a status code, as the enumeration assigns it. -/
def esp8266_status_t.toNat : esp8266_status_t → Nat
  | ESP8266_OK => 0
  | ESP8266_ERROR => 1
  | ESP8266_BUSY => 2
  | ESP8266_ALREADY_CONNECTED => 3
  | ESP8266_CONNECTION_CLOSED => 4
  | ESP8266_TIMEOUT => 5
  | ESP8266_IO_ERROR => 6

/-! ## The C library functions the driver calls -/

/-- The C string stored at the start of a byte array: the bytes before the first NUL. -/
def cstr (a : List Nat) : List Nat := a.takeWhile (fun c => c != 0)

/-- Search of an (already NUL-free) needle in a haystack, from offset `k`:
the offset of the first occurrence. -/
def strstr_from (needle : List Nat) : List Nat → Nat → Option Nat
  | [], k => if needle.isEmpty then some k else none
  | h :: t, k => if needle.isPrefixOf (h :: t) then some k else strstr_from needle t (k + 1)

/-- The C `strstr(hay, needle)`: the offset of the first occurrence of the C string
`needle` in the C string `hay`, `none` for a `NULL` result. -/
def strstr (hay needle : List Nat) : Option Nat := strstr_from (cstr needle) (cstr hay) 0

/-- The C test `strstr(hay, needle) != NULL`. -/
def strstr_found (hay needle : List Nat) : Bool := (strstr hay needle).isSome

/-- The C `memset(a, '\0', n)` of a whole array of `n` bytes. -/
def memset0 (n : Nat) : List Nat := List.replicate n 0

/-- The C `isspace` in the "C" locale. -/
def isspace (c : Nat) : Bool := c == 32 || (9 ≤ c && c ≤ 13)

/-- The C `isdigit`. -/
def isdigit (c : Nat) : Bool := 48 ≤ c && c ≤ 57

/-- The value of the leading decimal digits of a byte list. -/
def atoi_digits (s : List Nat) : Nat :=
  (s.takeWhile isdigit).foldl (fun acc c => acc * 10 + (c - 48)) 0

/-- The C `atoi`: optional white space, an optional sign, then decimal digits up to
the first byte that is not a digit. The array is read up to its end at most. -/
def atoi (s : List Nat) : Int :=
  match s.dropWhile isspace with
  | 45 :: r => - (atoi_digits r : Int)
  | 43 :: r => (atoi_digits r : Int)
  | r => (atoi_digits r : Int)

/-- Conversion of an `int` to `uint32_t`. -/
def toU32 (x : Int) : Nat := (x % 4294967296).toNat

/-- The ASCII decimal digits of `n`, as `"%u"` prints them. -/
def decimal (n : Nat) : List Nat := (Nat.toDigits 10 n).map Char.toNat

/-! ## `send_at_cmd` -/

/-- The result of a transaction: the status returned, the final `rx_buffer` and
`idx` (the number of response bytes consumed), and the transport bytes left unread. -/
structure AtResult where
  status : esp8266_status_t
  rx_buffer : List Nat
  idx : Nat
  rest : List Nat
  deriving DecidableEq, Repr

/-- The `while (1)` loop of `send_at_cmd`: one response byte per iteration. -/
def send_at_loop (Token : List Nat) : List Nat → Nat → List Nat → AtResult
  | rx_buffer, idx, [] =>
    -- esp8266_io_recv returned 0: break, then return ESP8266_ERROR
    ⟨ESP8266_ERROR, rx_buffer, idx, []⟩
  | rx_buffer, idx, RxChar :: rest =>
    let rx_buffer := rx_buffer.set idx RxChar
    let idx := idx + 1
    if idx == MAX_BUFFER_SIZE then
      ⟨ESP8266_ERROR, rx_buffer, idx, rest⟩
    else if strstr_found rx_buffer Token then
      ⟨ESP8266_OK, rx_buffer, idx, rest⟩
    else if strstr_found rx_buffer AT_ERROR_STRING then
      ⟨ESP8266_ERROR, rx_buffer, idx, rest⟩
    else
      send_at_loop Token rx_buffer idx rest

/-- The function `send_at_cmd(cmd, Length, Token)`. `rx_buffer` is the content the
global accumulator has on entry, `sendOk` tells whether `esp8266_io_send` succeeds
(returns 0) and `response` is the transport. -/
def send_at_cmd (_rx_buffer : List Nat) (sendOk : Bool) (Token : List Nat)
    (response : List Nat) : AtResult :=
  let rx_buffer := memset0 MAX_BUFFER_SIZE
  if !sendOk then
    ⟨ESP8266_ERROR, rx_buffer, 0, response⟩
  else
    send_at_loop Token rx_buffer 0 response

/-! ## `recv_data` -/

/-- The variables of `recv_data`, the transport and the caller's output buffer.
`Buffer` lists the bytes stored through `*Buffer++`, in order (the byte at offset
`k` of the caller's array is the `k`-th element); `overrun` records that
`LengthString[i++]` was written at an index outside the 4-byte array. -/
structure RecvState where
  input : List Nat
  rx_buffer : List Nat
  idx : Nat
  LengthString : List Nat
  LengthValue : Nat
  i : Nat
  newChunk : Bool
  RxChar : Nat
  Buffer : List Nat
  retLength : Nat
  overrun : Bool
  deriving DecidableEq, Repr

/-- The `do { esp8266_io_recv(&RxChar, 1); LengthString[i++] = RxChar; }
while (RxChar != ':')` loop. The result of the read is not tested: when no byte
arrives `RxChar` keeps its value. A store at an index `>= 4` lies outside
`LengthString`; it is recorded in `overrun` and leaves the modelled variables
unchanged. `i` is a `uint8_t`. -/
def read_length : Nat → RecvState → Option RecvState
  | 0, _ => none
  | fuel + 1, s =>
    let s1 : RecvState :=
      match s.input with
      | [] => s
      | c :: rest => { s with input := rest, RxChar := c }
    let s2 : RecvState :=
      { s1 with
        LengthString := if s1.i < 4 then s1.LengthString.set s1.i s1.RxChar
                        else s1.LengthString
        overrun := s1.overrun || decide (4 ≤ s1.i)
        i := (s1.i + 1) % 256 }
    if s2.RxChar != 58 then read_length fuel s2 else some s2

/-- The first part of an iteration of `recv_data` once a byte `c` has been read:
the payload store or the end of the chunk, then `rx_buffer[idx++] = RxChar`. -/
def recv_store (s : RecvState) (c : Nat) (rest : List Nat) : RecvState :=
  let s1 : RecvState := { s with input := rest, RxChar := c }
  let s2 : RecvState :=
    if s1.newChunk then
      if s1.LengthValue != 0 then
        { s1 with
          LengthValue := s1.LengthValue - 1
          Buffer := s1.Buffer ++ [c]
          retLength := (s1.retLength + 1) % 4294967296 }
      else
        { s1 with
          LengthValue := 4294967295
          newChunk := false
          rx_buffer := memset0 MAX_BUFFER_SIZE
          idx := 0 }
    else s1
  { s2 with rx_buffer := s2.rx_buffer.set s2.idx c, idx := s2.idx + 1 }

/-- The exit taken when no byte arrives or when `rx_buffer` is full: an error inside
an unfinished chunk, `break` (and `return ESP8266_OK`) otherwise. -/
def recv_exit (s : RecvState) : esp8266_status_t × RecvState :=
  if s.newChunk && s.LengthValue != 0 then (ESP8266_ERROR, s) else (ESP8266_OK, s)

/-- The header part of an iteration: when `rx_buffer` contains `"+IPD,"` outside a
chunk, read the length string and start a chunk. `none` when the inner loop does
not end within the fuel. -/
def recv_header (fuel : Nat) (s : RecvState) : Option RecvState :=
  if strstr_found s.rx_buffer AT_IPD_STRING && !s.newChunk then
    match read_length fuel { s with i := 0, LengthString := memset0 4 } with
    | none => none
    | some s1 =>
      some { s1 with LengthValue := toU32 (atoi s1.LengthString), newChunk := true }
  else some s

/-- The `while (1)` loop of `recv_data`. -/
def recv_loop : Nat → RecvState → Option (esp8266_status_t × RecvState)
  | 0, _ => none
  | fuel + 1, s =>
    match s.input with
    | [] => some (recv_exit s)
    | c :: rest =>
      let s1 := recv_store s c rest
      if s1.idx == MAX_BUFFER_SIZE then some (recv_exit s1)
      else
        match recv_header fuel s1 with
        | none => none
        | some s2 =>
          if strstr_found s2.rx_buffer AT_ERROR_STRING then some (ESP8266_ERROR, s2)
          else if strstr_found s2.rx_buffer AT_IPD_OK_STRING then
            recv_loop fuel { s2 with newChunk := false }
          else recv_loop fuel s2

/-- The state of `recv_data` when its loop is entered: `*retLength = 0`, `rx_buffer`
cleared, `idx = 0`, `i = 0`, `newChunk = ESP8266_FALSE`. `LengthString`,
`LengthValue` and `RxChar` are not initialised by the source (each is assigned
before it is first read); they start at zero here. -/
def recv_init (input : List Nat) : RecvState :=
  { input := input
    rx_buffer := memset0 MAX_BUFFER_SIZE
    idx := 0
    LengthString := memset0 4
    LengthValue := 0
    i := 0
    newChunk := false
    RxChar := 0
    Buffer := []
    retLength := 0
    overrun := false }

/-- What a call of `recv_data` leaves: the status, the bytes stored in the output
buffer, `*retLength`, the transport bytes left unread, and whether `LengthString`
was overrun. -/
structure RecvResult where
  status : esp8266_status_t
  Buffer : List Nat
  retLength : Nat
  rest : List Nat
  overrun : Bool
  deriving DecidableEq, Repr

/-- The function `recv_data(Buffer, Length, retLength)` run on a transport, with at
most `fuel` loop iterations; `none` when it has not returned by then. `Length` is
not used by the body. -/
def recv_data (fuel : Nat) (_Length : Nat) (input : List Nat) : Option RecvResult :=
  (recv_loop fuel (recv_init input)).map
    (fun r => ⟨r.1, r.2.Buffer, r.2.retLength, r.2.input, r.2.overrun⟩)

/-- The function `esp8266_recv_data(pData, Length, retLength)`: it forwards to
`recv_data`. -/
def esp8266_recv_data (fuel : Nat) (Length : Nat) (input : List Nat) : Option RecvResult :=
  recv_data fuel Length input

/-! ## `esp8266_io.c`: the receive ring buffer -/

def RING_BUFFER_SIZE : Nat := 1024 * 8

/-- The type `ring_buffer_t`: the storage and the two `uint16_t` cursors. -/
structure ring_buffer_t where
  data : List Nat
  tail : Nat
  head : Nat
  deriving DecidableEq, Repr

/-- The variables of `esp8266_io.c` that reception uses: the global `wifi_rx_buffer`
and the `static uint16_t tail_pos` of `HAL_UARTEx_RxEventCallback`. -/
structure IoState where
  wifi_rx_buffer : ring_buffer_t
  tail_pos : Nat
  deriving DecidableEq, Repr

/-- The state of the variables when the program starts: statics are zero. -/
def io_boot (data : List Nat) : IoState :=
  { wifi_rx_buffer := { data := data, tail := 0, head := 0 }, tail_pos := 0 }

/-- The function `esp8266_io_init()`; `halOk` tells whether
`HAL_UARTEx_ReceiveToIdle_DMA` returns `HAL_OK`. The result is the `int8_t` returned. -/
def esp8266_io_init (halOk : Bool) (st : IoState) : Int × IoState :=
  let st1 : IoState := { st with wifi_rx_buffer := { st.wifi_rx_buffer with head := 0, tail := 0 } }
  if !halOk then (-1, st1) else (0, st1)

/-- One pass of the `while (length--)` body of `esp8266_io_recv` when no receive event
occurs during the call: a byte is taken when `head != tail`, and otherwise the
`do ... while` polls until `DEFAULT_TIME_OUT` has elapsed and nothing is stored. -/
def io_recv_byte (st : IoState) : Option Nat × IoState :=
  let rb := st.wifi_rx_buffer
  if rb.head != rb.tail then
    let c := rb.data.getD rb.head 0
    let head := (rb.head + 1) % 65536
    let head := if head ≥ RING_BUFFER_SIZE then 0 else head
    (some c, { st with wifi_rx_buffer := { rb with head := head } })
  else (none, st)

/-- The function `esp8266_io_recv(buffer, length)`: the bytes stored in `buffer`, in
order (their number is the value returned), and the state left. -/
def esp8266_io_recv : Nat → IoState → List Nat × IoState
  | 0, st => ([], st)
  | length + 1, st =>
    match io_recv_byte st with
    | (some c, st1) =>
      let r := esp8266_io_recv length st1
      (c :: r.1, r.2)
    | (none, st1) => esp8266_io_recv length st1

/-- The function `HAL_UARTEx_RxEventCallback(huart, size)`; `isWifi` is the test
`huart == wifi_uart_handle`. The restart of the DMA reception is a call into the
HAL and changes none of the variables. -/
def HAL_UARTEx_RxEventCallback (isWifi : Bool) (size : Nat) (st : IoState) : IoState :=
  if isWifi then
    if size > st.tail_pos then
      let st1 : IoState := { st with tail_pos := size }
      if st1.tail_pos != st1.wifi_rx_buffer.head then
        { st1 with wifi_rx_buffer := { st1.wifi_rx_buffer with tail := st1.tail_pos } }
      else st1
    else st
  else st

/-- An event of the reception path: a receive-event callback for the Wi-Fi UART
reporting `size`, or a call `esp8266_io_recv(&c, 1)` by the application. -/
inductive IoEvent where
  | rx_event (size : Nat)
  | recv
  deriving DecidableEq, Repr

/-- The effect of one event on the state, with the ring-buffer position the event
read, if it read one. -/
def io_step (st : IoState) : IoEvent → Option Nat × IoState
  | IoEvent.rx_event size => (none, HAL_UARTEx_RxEventCallback true size st)
  | IoEvent.recv =>
    if (esp8266_io_recv 1 st).1.length = 1 then
      (some st.wifi_rx_buffer.head, (esp8266_io_recv 1 st).2)
    else (none, (esp8266_io_recv 1 st).2)

/-- A run of events: the final state and the positions read, in order. -/
def io_run : List IoEvent → IoState → List Nat × IoState
  | [], st => ([], st)
  | e :: es, st =>
    match io_step st e with
    | (some p, st1) => let r := io_run es st1; (p :: r.1, r.2)
    | (none, st1) => io_run es st1

/-- The state after `esp8266_io_init` on a freshly started program. -/
def io_start (data : List Nat) : IoState := (esp8266_io_init true (io_boot data)).2

/-! ## `send_at_cmd` on a transport that may never run dry -/

/-- What `send_at_cmd` leaves when the transport is given call by call: the status,
the final `rx_buffer` and `idx`, which is the number of response bytes consumed. -/
structure AtOutcome where
  status : esp8266_status_t
  rx_buffer : List Nat
  idx : Nat
  deriving DecidableEq, Repr

/-- The `while (1)` loop of `send_at_cmd` on a transport given call by call: `recv n`
is what the `n`-th call `esp8266_io_recv(&RxChar, 1)` of the transaction delivers,
`none` when it times out. The transport may deliver bytes for ever, so the loop takes
a fuel argument, one unit per iteration, and gives `none` when it runs out. -/
def send_at_loop_on (Token : List Nat) (recv : Nat → Option Nat) :
    Nat → List Nat → Nat → Nat → Option AtOutcome
  | 0, _, _, _ => none
  | fuel + 1, rx_buffer, idx, n =>
    match recv n with
    | none => some ⟨ESP8266_ERROR, rx_buffer, idx⟩
    | some RxChar =>
      let rx_buffer := rx_buffer.set idx RxChar
      let idx := idx + 1
      if idx == MAX_BUFFER_SIZE then
        some ⟨ESP8266_ERROR, rx_buffer, idx⟩
      else if strstr_found rx_buffer Token then
        some ⟨ESP8266_OK, rx_buffer, idx⟩
      else if strstr_found rx_buffer AT_ERROR_STRING then
        some ⟨ESP8266_ERROR, rx_buffer, idx⟩
      else
        send_at_loop_on Token recv fuel rx_buffer idx (n + 1)

/-- The function `send_at_cmd(cmd, Length, Token)` on a transport given call by call. -/
def send_at_cmd_on (fuel : Nat) (_rx_buffer : List Nat) (sendOk : Bool) (Token : List Nat)
    (recv : Nat → Option Nat) : Option AtOutcome :=
  let rx_buffer := memset0 MAX_BUFFER_SIZE
  if !sendOk then
    some ⟨ESP8266_ERROR, rx_buffer, 0⟩
  else
    send_at_loop_on Token recv fuel rx_buffer 0 0

/-- The transport that delivers the bytes of a list and then times out for ever. -/
def transport_of (response : List Nat) : Nat → Option Nat := fun n => response[n]?

/-! ## The command builders -/

/-- The stores `a[k] = c`, `a[k + 1] = ...` of a run of bytes into an array, from
index `k` on. A store outside the array changes nothing in it. -/
def store_bytes : List Nat → Nat → List Nat → List Nat
  | a, _, [] => a
  | a, k, c :: cs => store_bytes (a.set k c) (k + 1) cs

/-- The array `at_cmd` after `memset(at_cmd, '\0', MAX_AT_CMD_SIZE)` followed by a
`sprintf((char *)at_cmd, ...)` whose output is `out`: the bytes of `out` and the
terminating NUL are stored from index 0 on, with no bound. The flag tells that a
store fell at an index `>= MAX_AT_CMD_SIZE`, outside the array. -/
def sprintf_at_cmd (out : List Nat) : List Nat × Bool :=
  (store_bytes (memset0 MAX_AT_CMD_SIZE) 0 (out ++ [0]),
   decide (MAX_AT_CMD_SIZE < (out ++ [0]).length))

/-- What a command function leaves: the status returned, the array `at_cmd`, whether
`sprintf` stored outside it, the `Length = strlen(at_cmd)` passed to `send_at_cmd`
and the `Length` bytes of `at_cmd` handed to `esp8266_io_send`. -/
structure CmdResult where
  status : esp8266_status_t
  at_cmd : List Nat
  overrun : Bool
  Length : Nat
  sent : List Nat
  deriving DecidableEq, Repr

/-- The output of `sprintf` for the format `"AT+CWJAP=\"%s\",\"%s\"%c%c"` with the
arguments `Ssid`, `Password`, `'\r'`, `'\n'`. -/
def format_CWJAP (Ssid Password : List Nat) : List Nat :=
  [65, 84, 43, 67, 87, 74, 65, 80, 61, 34] ++ cstr Ssid ++ [34, 44, 34] ++ cstr Password ++
    [34] ++ [13, 10]

/-- The function `esp8266_joint_ap(Ssid, Password)`. -/
def esp8266_joint_ap (Ssid Password : List Nat) (rx_buffer : List Nat) (sendOk : Bool)
    (response : List Nat) : CmdResult :=
  let w := sprintf_at_cmd (format_CWJAP Ssid Password)
  let at_cmd := w.1
  let Length := (cstr at_cmd).length
  let ret := send_at_cmd rx_buffer sendOk AT_OK_STRING response
  ⟨ret.status, at_cmd, w.2, Length, at_cmd.take Length⟩

/-- The output of `sprintf` for `"AT+CIPCLOSE%c%c"` with `'\r'`, `'\n'`. -/
def format_CIPCLOSE : List Nat := [65, 84, 43, 67, 73, 80, 67, 76, 79, 83, 69, 13, 10]

/-- The function `esp8266_close_connection(channel_id)`, on a transport given call by
call; `channel_id` is not used by the body. The result is the status returned. -/
def esp8266_close_connection (fuel : Nat) (_channel_id : Nat) (rx_buffer : List Nat)
    (sendOk : Bool) (recv : Nat → Option Nat) : Option esp8266_status_t :=
  (send_at_cmd_on fuel rx_buffer sendOk AT_OK_STRING recv).map (fun ret => ret.status)

/-- The bytes of `"STAIP,"`. -/
def STAIP_STRING : List Nat := [83, 84, 65, 73, 80, 44]

/-- The function `esp8266_get_ip(Mode, IpAddress)`: the status returned and the C
string left in `IpAddress`. `Mode` is not used by the body. The result is `none`
when the body dereferences a pointer derived from a `NULL` result of `strstr`:
`Token += 7` then `strstr(Token, "\"")` after `"STAIP,"` was not found, or
`*temp = '\0'` after no double quote was found. -/
def esp8266_get_ip (rx_buffer : List Nat) (sendOk : Bool) (response : List Nat) :
    Option (esp8266_status_t × List Nat) :=
  let IpAddress : List Nat := [48, 46, 48, 46, 48, 46, 48]
  let ret := send_at_cmd rx_buffer sendOk AT_OK_STRING response
  if ret.status = ESP8266_OK then
    match strstr ret.rx_buffer STAIP_STRING with
    | none => none
    | some o =>
      let Token := o + 7
      match strstr (ret.rx_buffer.drop Token) [34] with
      | none => none
      | some q =>
        let rx_buffer := ret.rx_buffer.set (Token + q) 0
        some (ret.status, cstr (rx_buffer.drop Token))
  else some (ret.status, IpAddress)

/-! ## `catch_incoming_message` and the stores of the token-matching loops -/

/-- The C `memset(a, c, n)` on the first `n` bytes of an array of at least `n` bytes. -/
def memset (a : List Nat) (c n : Nat) : List Nat := List.replicate n c ++ a.drop n

/-- What one iteration of a token-matching loop does to its buffer: the index of the
store `buffer[idx++] = RxChar`, and, when the iteration goes on to the `strstr`
searches, the buffer and `idx` they run on. -/
structure Probe where
  store : Nat
  search : Option (List Nat × Nat)
  deriving DecidableEq, Repr

/-- What `catch_incoming_message` leaves: the status, the message buffer, `idx`, the
transport bytes left unread, and the record of its iterations. -/
structure CatchResult where
  status : esp8266_status_t
  messageBuffer : List Nat
  idx : Nat
  rest : List Nat
  probes : List Probe
  deriving DecidableEq, Repr

/-- The `while (1)` loop of `catch_incoming_message`: one byte per iteration. -/
def catch_loop (token : List Nat) (maxBufferLength : Nat) :
    List Nat → Nat → List Nat → CatchResult
  | messageBuffer, idx, [] =>
    ⟨ESP8266_ERROR, messageBuffer, idx, [], []⟩
  | messageBuffer, idx, RxChar :: rest =>
    let store := idx
    let messageBuffer := messageBuffer.set idx RxChar
    let idx := idx + 1
    if idx == maxBufferLength then
      ⟨ESP8266_ERROR, messageBuffer, idx, rest, [⟨store, none⟩]⟩
    else if strstr_found messageBuffer token then
      ⟨ESP8266_OK, messageBuffer, idx, rest, [⟨store, some (messageBuffer, idx)⟩]⟩
    else if strstr_found messageBuffer AT_ERROR_STRING then
      ⟨ESP8266_ERROR, messageBuffer, idx, rest, [⟨store, some (messageBuffer, idx)⟩]⟩
    else
      let r := catch_loop token maxBufferLength messageBuffer idx rest
      { r with probes := ⟨store, some (messageBuffer, idx)⟩ :: r.probes }

/-- The function `catch_incoming_message(messageBuffer, maxBufferLength, token)`. -/
def catch_incoming_message (messageBuffer : List Nat) (maxBufferLength : Nat)
    (token : List Nat) (stream : List Nat) : CatchResult :=
  let messageBuffer := memset messageBuffer 0 maxBufferLength
  catch_loop token maxBufferLength messageBuffer 0 stream

/-- The record of the iterations of the `while (1)` loop of `send_at_cmd`, the loop
of `send_at_loop` with its stores and searches written down. -/
def send_at_probes (Token : List Nat) : List Nat → Nat → List Nat → List Probe
  | _, _, [] => []
  | rx_buffer, idx, RxChar :: rest =>
    let store := idx
    let rx_buffer := rx_buffer.set idx RxChar
    let idx := idx + 1
    if idx == MAX_BUFFER_SIZE then
      [⟨store, none⟩]
    else if strstr_found rx_buffer Token then
      [⟨store, some (rx_buffer, idx)⟩]
    else if strstr_found rx_buffer AT_ERROR_STRING then
      [⟨store, some (rx_buffer, idx)⟩]
    else
      ⟨store, some (rx_buffer, idx)⟩ :: send_at_probes Token rx_buffer idx rest

/-! ## `esp8266_send_data` -/

/-- The output of `sprintf` for `"AT+CIPSEND=%lu%c%c"` with `Length`, `'\r'`, `'\n'`. -/
def format_CIPSEND (Length : Nat) : List Nat :=
  [65, 84, 43, 67, 73, 80, 83, 69, 78, 68, 61] ++ decimal Length ++ [13, 10]

/-- What `esp8266_send_data` leaves: the status, the runs of bytes handed to
`esp8266_io_send`, in order, the accumulator and the transport bytes left unread. -/
structure SendResult where
  status : esp8266_status_t
  writes : List (List Nat)
  rx_buffer : List Nat
  rest : List Nat
  deriving DecidableEq, Repr

/-- The function `esp8266_send_data(Buffer, Length)`; `Buffer` is `none` for a `NULL`
pointer, `promptSendOk` and `dataSendOk` tell whether the first and the second call
of `esp8266_io_send` succeed. -/
def esp8266_send_data (Buffer : Option (List Nat)) (Length : Nat) (rx_buffer : List Nat)
    (promptSendOk dataSendOk : Bool) (response : List Nat) : SendResult :=
  match Buffer with
  | none => ⟨ESP8266_OK, [], rx_buffer, response⟩
  | some data =>
    let at_cmd := (sprintf_at_cmd (format_CIPSEND Length)).1
    let cmd := at_cmd.take (cstr at_cmd).length
    let ret := send_at_cmd rx_buffer promptSendOk AT_SEND_PROMPT_STRING response
    if ret.status ≠ ESP8266_OK then
      ⟨ESP8266_ERROR, [cmd], ret.rx_buffer, ret.rest⟩
    else
      let ret2 := send_at_cmd ret.rx_buffer dataSendOk AT_SEND_OK_STRING ret.rest
      ⟨ret2.status, [cmd, data.take Length], ret2.rx_buffer, ret2.rest⟩

/-! ## The entry of `recv_data` -/

/-- The first two statements of `recv_data`, `*retLength = 0` and
`memset(rx_buffer, '\0', MAX_BUFFER_SIZE)`, from what `*retLength` and `rx_buffer`
hold when the function is called: the state in which the loop is entered. -/
def recv_entry (_retLength : Nat) (rx_buffer : List Nat) (input : List Nat) : RecvState :=
  { recv_init input with
    retLength := 0
    rx_buffer := memset rx_buffer 0 MAX_BUFFER_SIZE }

/-! ## Notions used by the statements -/

/-- An accumulator holding the bytes `w` followed by zeros up to `MAX_BUFFER_SIZE`. -/
def padded (w : List Nat) : List Nat := w ++ List.replicate (MAX_BUFFER_SIZE - w.length) 0

/-- One frame `"+IPD,<n>:"` followed by its `n` payload bytes. -/
def frame (p : List Nat) : List Nat := AT_IPD_STRING ++ (decimal p.length ++ 58 :: p)

/-- The frames of a list of payload chunks, one after the other. -/
def ipd_frames (chunks : List (List Nat)) : List Nat := (chunks.map frame).flatten

/-- The transport stream of a list of chunks: the frames, then `"OK\r\n\r\n"`. -/
def ipd_stream (chunks : List (List Nat)) : List Nat := ipd_frames chunks ++ AT_IPD_OK_STRING

/-- The number of loop iterations `recv_data` spends on the frames of `chunks`: the
length digits and the colon are read by the inner loop. -/
def frame_iterations (chunks : List (List Nat)) : Nat :=
  (chunks.map (fun p => 5 + p.length)).sum

/-- The decoder is between two frames: it has just been started, or the payload of
the current chunk is complete. -/
def Ready (s : RecvState) : Prop :=
  (s.newChunk = false ∧ s.rx_buffer = padded [] ∧ s.idx = 0) ∨
  (s.newChunk = true ∧ s.LengthValue = 0)

/-- A buffer whose first `n` bytes are the bytes `w` followed by zeros, and whose
bytes from index `n` on are `tail`. -/
def filled (n : Nat) (w tail : List Nat) : List Nat :=
  w ++ List.replicate (n - w.length) 0 ++ tail

/-- The relation between `*retLength`, the output buffer and the transport that
`recv_data` keeps: `*retLength` is the number of bytes stored (as a `uint32_t`), and
the bytes stored are bytes of the part of `input0` consumed so far, in their order
of arrival. -/
def stored_ok (input0 : List Nat) (s : RecvState) : Prop :=
  s.retLength = s.Buffer.length % 4294967296 ∧
  ∃ pre, input0 = pre ++ s.input ∧ s.Buffer.Sublist pre

/-! # Theorems -/

/-! ## Lemmas on the library functions -/

theorem strstr_from_isSome (needle hay : List Nat) (k : Nat) :
    (strstr_from needle hay k).isSome = true ↔ needle <:+: hay := by
  induction hay generalizing k with
  | nil =>
    cases needle <;> simp [strstr_from]
  | cons h t ih =>
    rw [strstr_from, List.infix_cons_iff]
    by_cases hp : needle.isPrefixOf (h :: t) = true
    · simp only [hp, if_true, Option.isSome_some, true_iff]
      exact Or.inl (List.isPrefixOf_iff_prefix.mp hp)
    · simp only [hp, if_false, Bool.false_eq_true]
      rw [ih]
      constructor
      · intro h1; exact Or.inr h1
      · rintro (h1 | h1)
        · exact absurd (List.isPrefixOf_iff_prefix.mpr h1) hp
        · exact h1

theorem strstr_found_iff (hay needle : List Nat) :
    strstr_found hay needle = true ↔ cstr needle <:+: cstr hay := by
  unfold strstr_found strstr
  exact strstr_from_isSome _ _ _

theorem strstr_found_eq_false_iff (hay needle : List Nat) :
    strstr_found hay needle = false ↔ ¬ cstr needle <:+: cstr hay := by
  rw [← strstr_found_iff]; simp

theorem cstr_initial (a : List Nat) : cstr a <+: a := List.takeWhile_prefix _

theorem cstr_append_zeros (w : List Nat) (n : Nat) :
    cstr (w ++ List.replicate (n + 1) 0) = cstr w := by
  unfold cstr
  induction w with
  | nil => simp [List.replicate_succ]
  | cons h t ih =>
    by_cases hh : h = 0
    · subst hh; simp
    · simp [List.takeWhile_cons, hh, ih]

theorem cstr_padded (w : List Nat) (h : w.length < MAX_BUFFER_SIZE) :
    cstr (padded w) = cstr w := by
  unfold padded
  obtain ⟨n, hn⟩ : ∃ n, MAX_BUFFER_SIZE - w.length = n + 1 := ⟨MAX_BUFFER_SIZE - w.length - 1, by omega⟩
  rw [hn, cstr_append_zeros]

theorem padded_nil : padded [] = memset0 MAX_BUFFER_SIZE := by
  simp [padded, memset0]

theorem padded_set (w : List Nat) (c : Nat) (h : w.length < MAX_BUFFER_SIZE) :
    (padded w).set w.length c = padded (w ++ [c]) := by
  unfold padded
  obtain ⟨n, hn⟩ : ∃ n, MAX_BUFFER_SIZE - w.length = n + 1 := ⟨MAX_BUFFER_SIZE - w.length - 1, by omega⟩
  have hn2 : MAX_BUFFER_SIZE - (w ++ [c]).length = n := by simp; omega
  rw [hn, hn2, List.set_append_right _ _ (le_refl _)]
  simp [List.replicate_succ]

theorem padded_length (w : List Nat) (h : w.length ≤ MAX_BUFFER_SIZE) :
    (padded w).length = MAX_BUFFER_SIZE := by
  simp [padded]; omega

theorem strstr_found_padded (w needle : List Nat) (h : w.length < MAX_BUFFER_SIZE) :
    strstr_found (padded w) needle = strstr_found w needle := by
  unfold strstr_found strstr
  rw [cstr_padded w h]

/-- A C string without NUL is its own content. -/
theorem cstr_of_no_zero (w : List Nat) (h : ∀ c ∈ w, c ≠ 0) : cstr w = w := by
  unfold cstr
  rw [List.takeWhile_eq_self_iff]
  intro c hc
  simpa using h c hc

theorem cstr_append_of_no_zero (u x : List Nat) (h : ∀ c ∈ u, c ≠ 0) :
    cstr (u ++ x) = u ++ cstr x := by
  unfold cstr
  apply List.takeWhile_append_of_pos
  intro c hc
  simpa using h c hc

/-- An occurrence of a word in `u ++ x` lies in `x` when its first byte is not in `u`. -/
theorem infix_of_infix_append (t0 : Nat) (ts u x : List Nat) (h0 : t0 ∉ u)
    (h : (t0 :: ts) <:+: (u ++ x)) : (t0 :: ts) <:+: x := by
  induction u with
  | nil => simpa using h
  | cons a u ih =>
    have h0a : t0 ≠ a := fun e => h0 (by simp [e])
    have h0u : t0 ∉ u := fun e => h0 (by simp [e])
    rw [List.cons_append, List.infix_cons_iff] at h
    rcases h with h | h
    · obtain ⟨r, hr⟩ := h
      simp at hr
      exact absurd hr.1 h0a
    · exact ih h0u h

set_option maxRecDepth 100000 in
theorem decimal_small : ∀ n < 1000, decimal n =
    if n < 10 then [48 + n]
    else if n < 100 then [48 + n / 10, 48 + n % 10]
    else [48 + n / 100, 48 + n / 10 % 10, 48 + n % 10] := by
  decide

theorem recv_loop_nodata (fuel : Nat) (s : RecvState) (hin : s.input = [])
    (hnc : s.newChunk = false) : recv_loop (fuel + 1) s = some (ESP8266_OK, s) := by
  simp [recv_loop, hin, recv_exit, hnc]

theorem recv_loop_idle (fuel : Nat) (s : RecvState) (w : List Nat) (c : Nat) (rest : List Nat)
    (hnc : s.newChunk = false) (hbuf : s.rx_buffer = padded w) (hidx : s.idx = w.length)
    (hlen : w.length + 1 < MAX_BUFFER_SIZE) (hin : s.input = c :: rest)
    (hipd : strstr_found (w ++ [c]) AT_IPD_STRING = false)
    (herr : strstr_found (w ++ [c]) AT_ERROR_STRING = false) :
    ∃ s', recv_loop (fuel + 1) s = recv_loop fuel s' ∧ s'.newChunk = false ∧
      s'.rx_buffer = padded (w ++ [c]) ∧ s'.idx = w.length + 1 ∧ s'.input = rest ∧
      s'.Buffer = s.Buffer ∧ s'.retLength = s.retLength ∧ s'.overrun = s.overrun := by
  obtain ⟨input, rx, idx, ls, lv, i, nc, rxc, buf, rl, ov⟩ := s
  simp only at hnc hbuf hidx hin
  subst hnc hbuf hidx hin
  have h1 : w.length < MAX_BUFFER_SIZE := by omega
  have h2 : (w ++ [c]).length < MAX_BUFFER_SIZE := by simp; omega
  have h3 : ¬ (w.length + 1 = MAX_BUFFER_SIZE) := by omega
  refine ⟨⟨rest, padded (w ++ [c]), w.length + 1, ls, lv, i, false, c, buf, rl, ov⟩, ?_, rfl, rfl, rfl, rfl, rfl, rfl, rfl⟩
  rw [recv_loop]
  simp only [recv_store, recv_header, padded_set w c h1, strstr_found_padded _ _ h2, hipd, herr,
    beq_iff_eq, h3, if_false, Bool.false_and, Bool.false_eq_true]
  split <;> rfl

set_option maxRecDepth 100000 in
theorem atoi_one : ∀ n < 10, toU32 (atoi [48 + n, 58, 0, 0]) = n := by decide

set_option maxRecDepth 100000 in
theorem atoi_two : ∀ n < 100, toU32 (atoi [48 + n / 10, 48 + n % 10, 58, 0]) = n := by decide

set_option maxRecDepth 100000 in
theorem atoi_three : ∀ n < 1000,
    toU32 (atoi [48 + n / 100, 48 + n / 10 % 10, 48 + n % 10, 58]) = n := by decide

/-- The length loop on a header of at most three digits: the digits and the colon
land inside `LengthString`, whose value is the declared length. -/
theorem read_length_decimal (fuel n : Nat) (s : RecvState) (rest : List Nat) (hn : n < 1000)
    (hi : s.i = 0) (hls : s.LengthString = memset0 4)
    (hin : s.input = decimal n ++ 58 :: rest) (hfuel : 4 ≤ fuel) :
    ∃ s', read_length fuel s = some s' ∧ toU32 (atoi s'.LengthString) = n ∧
      s'.input = rest ∧ s'.rx_buffer = s.rx_buffer ∧ s'.idx = s.idx ∧
      s'.newChunk = s.newChunk ∧ s'.Buffer = s.Buffer ∧ s'.retLength = s.retLength ∧
      s'.overrun = s.overrun := by
  obtain ⟨input, rx, idx, ls, lv, i, nc, rxc, buf, rl, ov⟩ := s
  simp only at hi hls hin
  subst hi hls hin
  obtain ⟨f, rfl⟩ : ∃ f, fuel = f + 4 := ⟨fuel - 4, by omega⟩
  rw [decimal_small n hn]
  by_cases h1 : n < 10
  · have hne : ¬ (48 + n = 58) := by omega
    refine ⟨⟨rest, rx, idx, [48 + n, 58, 0, 0], lv, 2, nc, 58, buf, rl, ov⟩, ?_, atoi_one n h1,
      rfl, rfl, rfl, rfl, rfl, rfl, rfl⟩
    simp [h1, read_length, memset0, hne, List.replicate]
  · by_cases h2 : n < 100
    · have hne1 : ¬ (48 + n / 10 = 58) := by omega
      have hne2 : ¬ (48 + n % 10 = 58) := by omega
      refine ⟨⟨rest, rx, idx, [48 + n / 10, 48 + n % 10, 58, 0], lv, 3, nc, 58, buf, rl, ov⟩, ?_,
        atoi_two n h2, rfl, rfl, rfl, rfl, rfl, rfl, rfl⟩
      simp [h1, h2, read_length, memset0, hne1, hne2, List.replicate]
    · have hne1 : ¬ (48 + n / 100 = 58) := by omega
      have hne2 : ¬ (48 + n / 10 % 10 = 58) := by omega
      have hne3 : ¬ (48 + n % 10 = 58) := by omega
      refine ⟨⟨rest, rx, idx, [48 + n / 100, 48 + n / 10 % 10, 48 + n % 10, 58], lv, 4, nc, 58,
        buf, rl, ov⟩, ?_, atoi_three n hn, rfl, rfl, rfl, rfl, rfl, rfl, rfl⟩
      simp [h1, h2, read_length, memset0, hne1, hne2, hne3, List.replicate]

theorem recv_loop_payload (fuel : Nat) (s : RecvState) (w : List Nat) (c m : Nat)
    (rest : List Nat) (hnc : s.newChunk = true) (hlv : s.LengthValue = m + 1)
    (hbuf : s.rx_buffer = padded w) (hidx : s.idx = w.length)
    (hlen : w.length + 1 < MAX_BUFFER_SIZE) (hin : s.input = c :: rest)
    (herr : strstr_found (w ++ [c]) AT_ERROR_STRING = false)
    (hok : strstr_found (w ++ [c]) AT_IPD_OK_STRING = false) :
    ∃ s', recv_loop (fuel + 1) s = recv_loop fuel s' ∧ s'.newChunk = true ∧
      s'.LengthValue = m ∧ s'.rx_buffer = padded (w ++ [c]) ∧ s'.idx = w.length + 1 ∧
      s'.input = rest ∧ s'.Buffer = s.Buffer ++ [c] ∧
      s'.retLength = (s.retLength + 1) % 4294967296 ∧ s'.overrun = s.overrun := by
  obtain ⟨input, rx, idx, ls, lv, i, nc, rxc, buf, rl, ov⟩ := s
  simp only at hnc hbuf hidx hin hlv
  subst hnc hbuf hidx hin hlv
  have h1 : w.length < MAX_BUFFER_SIZE := by omega
  have h2 : (w ++ [c]).length < MAX_BUFFER_SIZE := by simp; omega
  have h3 : ¬ (w.length + 1 = MAX_BUFFER_SIZE) := by omega
  refine ⟨⟨rest, padded (w ++ [c]), w.length + 1, ls, m, i, true, c, buf ++ [c],
    (rl + 1) % 4294967296, ov⟩, ?_, rfl, rfl, rfl, rfl, rfl, rfl, rfl, rfl⟩
  rw [recv_loop]
  simp [recv_store, recv_header, padded_set w c h1, strstr_found_padded _ _ h2, herr, hok, h3]

theorem strstr_found_single (c : Nat) (t : List Nat) (ht : 2 ≤ (cstr t).length) :
    strstr_found [c] t = false := by
  rw [strstr_found_eq_false_iff]
  intro h
  have h1 := h.length_le
  have h2 := (cstr_initial [c]).length_le
  simp at h2
  omega

theorem recv_loop_first (fuel : Nat) (s : RecvState) (c : Nat) (rest : List Nat)
    (hr : Ready s) (hin : s.input = c :: rest) :
    ∃ s', recv_loop (fuel + 1) s = recv_loop fuel s' ∧ s'.newChunk = false ∧
      s'.rx_buffer = padded [c] ∧ s'.idx = 1 ∧ s'.input = rest ∧
      s'.Buffer = s.Buffer ∧ s'.retLength = s.retLength ∧ s'.overrun = s.overrun := by
  have hipd : strstr_found [c] AT_IPD_STRING = false := strstr_found_single c _ (by decide)
  have herr : strstr_found [c] AT_ERROR_STRING = false := strstr_found_single c _ (by decide)
  rcases hr with ⟨hnc, hbuf, hidx⟩ | ⟨hnc, hlv⟩
  · have := recv_loop_idle fuel s [] c rest hnc hbuf (by simpa using hidx) (by decide) hin
      (by simpa using hipd) (by simpa using herr)
    simpa using this
  · obtain ⟨input, rx, idx, ls, lv, i, nc, rxc, buf, rl, ov⟩ := s
    simp only at hnc hin hlv
    subst hnc hin hlv
    refine ⟨⟨rest, padded [c], 1, ls, 4294967295, i, false, c, buf, rl, ov⟩, ?_,
      rfl, rfl, rfl, rfl, rfl, rfl, rfl⟩
    have h2 : ([c] : List Nat).length < MAX_BUFFER_SIZE := by
      show 1 < MAX_BUFFER_SIZE
      decide
    have hset : (memset0 MAX_BUFFER_SIZE).set 0 c = padded [c] := by
      rw [← padded_nil]; exact padded_set [] c (by decide)
    rw [recv_loop]
    have h3 : ¬ (1 = MAX_BUFFER_SIZE) := by decide
    simp [recv_store, recv_header, hset, strstr_found_padded _ _ h2, hipd, herr, h3]

theorem recv_loop_header (fuel n : Nat) (s : RecvState) (rest : List Nat)
    (hn : n < 1000) (hnc : s.newChunk = false) (hbuf : s.rx_buffer = padded [43, 73, 80, 68])
    (hidx : s.idx = 4) (hin : s.input = 44 :: (decimal n ++ 58 :: rest)) (hfuel : 4 ≤ fuel) :
    ∃ s', recv_loop (fuel + 1) s = recv_loop fuel s' ∧ s'.newChunk = true ∧
      s'.LengthValue = n ∧ s'.rx_buffer = padded AT_IPD_STRING ∧ s'.idx = 5 ∧
      s'.input = rest ∧ s'.Buffer = s.Buffer ∧ s'.retLength = s.retLength ∧
      s'.overrun = s.overrun := by
  obtain ⟨input, rx, idx, ls, lv, i, nc, rxc, buf, rl, ov⟩ := s
  simp only at hnc hbuf hidx hin
  subst hnc hbuf hidx hin
  have hset : (padded [43, 73, 80, 68]).set 4 44 = padded AT_IPD_STRING :=
    padded_set [43, 73, 80, 68] 44 (by decide)
  have hlen : AT_IPD_STRING.length < MAX_BUFFER_SIZE := by decide
  have hipd : strstr_found (padded AT_IPD_STRING) AT_IPD_STRING = true := by
    rw [strstr_found_padded _ _ hlen]; decide
  have herr : strstr_found (padded AT_IPD_STRING) AT_ERROR_STRING = false := by
    rw [strstr_found_padded _ _ hlen]; decide
  have hok : strstr_found (padded AT_IPD_STRING) AT_IPD_OK_STRING = false := by
    rw [strstr_found_padded _ _ hlen]; decide
  obtain ⟨s1, h1, hat, hin1, hrx1, hidx1, hnc1, hbuf1, hrl1, hov1⟩ :=
    read_length_decimal fuel n
      ⟨decimal n ++ 58 :: rest, padded AT_IPD_STRING, 5, memset0 4, lv, 0, false, 44, buf, rl, ov⟩
      rest hn rfl rfl rfl hfuel
  simp only at hrx1 hidx1 hnc1 hbuf1 hrl1 hov1
  refine ⟨{ s1 with LengthValue := toU32 (atoi s1.LengthString), newChunk := true }, ?_,
    rfl, hat, hrx1, hidx1, hin1, hbuf1, hrl1, hov1⟩
  have h5 : ¬ ((5 : Nat) = MAX_BUFFER_SIZE) := by decide
  rw [recv_loop]
  simp [recv_store, recv_header, hset, hipd, h5, h1, hrx1, herr, hok]

/-- A run of payload bytes inside a chunk. -/
theorem recv_loop_payload_run (p : List Nat) :
    ∀ (fuel m : Nat) (s : RecvState) (w rest : List Nat),
    s.newChunk = true → s.LengthValue = m + p.length → s.rx_buffer = padded w →
    s.idx = w.length → w.length + p.length < MAX_BUFFER_SIZE → s.input = p ++ rest →
    (∀ j, j ≤ p.length → strstr_found (w ++ p.take j) AT_ERROR_STRING = false) →
    (∀ j, j ≤ p.length → strstr_found (w ++ p.take j) AT_IPD_OK_STRING = false) →
    s.retLength + p.length < 4294967296 →
    ∃ s', recv_loop (fuel + p.length) s = recv_loop fuel s' ∧ s'.newChunk = true ∧
      s'.LengthValue = m ∧ s'.rx_buffer = padded (w ++ p) ∧ s'.idx = w.length + p.length ∧
      s'.input = rest ∧ s'.Buffer = s.Buffer ++ p ∧
      s'.retLength = s.retLength + p.length ∧ s'.overrun = s.overrun := by
  induction p with
  | nil =>
    intro fuel m s w rest hnc hlv hbuf hidx _ hin _ _ _
    exact ⟨s, rfl, hnc, by simpa using hlv, by simpa using hbuf, by simpa using hidx,
      by simpa using hin, by simp, by simp, rfl⟩
  | cons c p ih =>
    intro fuel m s w rest hnc hlv hbuf hidx hlen hin herr hok hrl
    simp only [List.length_cons] at hlv hlen hrl herr hok
    obtain ⟨s1, e1, hnc1, hlv1, hbuf1, hidx1, hin1, hB1, hrl1, hov1⟩ :=
      recv_loop_payload (fuel + p.length) s w c (m + p.length) (p ++ rest) hnc (by omega) hbuf
        hidx (by omega) (by simpa using hin) (by simpa using herr 1 (by omega))
        (by simpa using hok 1 (by omega))
    have hrl1' : s1.retLength = s.retLength + 1 := by
      rw [hrl1]; exact Nat.mod_eq_of_lt (by omega)
    obtain ⟨s2, e2, hnc2, hlv2, hbuf2, hidx2, hin2, hB2, hrl2, hov2⟩ :=
      ih fuel m s1 (w ++ [c]) rest hnc1 hlv1 hbuf1 (by simpa using hidx1)
        (by simp; omega) hin1
        (fun j hj => by simpa using herr (j + 1) (by omega))
        (fun j hj => by simpa using hok (j + 1) (by omega))
        (by omega)
    have hidx2' : s2.idx = w.length + (p.length + 1) := by
      rw [hidx2]; simp; omega
    have hrl2' : s2.retLength = s.retLength + (p.length + 1) := by omega
    refine ⟨s2, ?_, hnc2, hlv2, by simpa using hbuf2, by simpa using hidx2', hin2,
      by simp [hB2, hB1], by simpa using hrl2', by rw [hov2, hov1]⟩
    rw [← e2, ← e1]
    rfl

/-- A run of bytes read outside a chunk while the accumulator shows neither the frame
prefix nor the error token. -/
theorem recv_loop_idle_run (t : List Nat) :
    ∀ (fuel : Nat) (s : RecvState) (w rest : List Nat),
    s.newChunk = false → s.rx_buffer = padded w → s.idx = w.length →
    w.length + t.length < MAX_BUFFER_SIZE → s.input = t ++ rest →
    (∀ j, j ≤ t.length → strstr_found (w ++ t.take j) AT_IPD_STRING = false) →
    (∀ j, j ≤ t.length → strstr_found (w ++ t.take j) AT_ERROR_STRING = false) →
    ∃ s', recv_loop (fuel + t.length) s = recv_loop fuel s' ∧ s'.newChunk = false ∧
      s'.rx_buffer = padded (w ++ t) ∧ s'.idx = w.length + t.length ∧
      s'.input = rest ∧ s'.Buffer = s.Buffer ∧ s'.retLength = s.retLength ∧
      s'.overrun = s.overrun := by
  induction t with
  | nil =>
    intro fuel s w rest hnc hbuf hidx _ hin _ _
    exact ⟨s, rfl, hnc, by simpa using hbuf, by simpa using hidx, by simpa using hin,
      rfl, rfl, rfl⟩
  | cons c t ih =>
    intro fuel s w rest hnc hbuf hidx hlen hin hipd herr
    simp only [List.length_cons] at hlen hipd herr
    obtain ⟨s1, e1, hnc1, hbuf1, hidx1, hin1, hB1, hrl1, hov1⟩ :=
      recv_loop_idle (fuel + t.length) s w c (t ++ rest) hnc hbuf hidx (by omega)
        (by simpa using hin) (by simpa using hipd 1 (by omega))
        (by simpa using herr 1 (by omega))
    obtain ⟨s2, e2, hnc2, hbuf2, hidx2, hin2, hB2, hrl2, hov2⟩ :=
      ih fuel s1 (w ++ [c]) rest hnc1 hbuf1 (by simpa using hidx1) (by simp; omega) hin1
        (fun j hj => by simpa using hipd (j + 1) (by omega))
        (fun j hj => by simpa using herr (j + 1) (by omega))
    have hidx2' : s2.idx = w.length + (t.length + 1) := by
      rw [hidx2]; simp; omega
    refine ⟨s2, ?_, hnc2, by simpa using hbuf2, by simpa using hidx2', hin2,
      by rw [hB2, hB1], by rw [hrl2, hrl1], by rw [hov2, hov1]⟩
    rw [← e2, ← e1]
    rfl

theorem cstr_AT_ERROR_STRING : cstr AT_ERROR_STRING = AT_ERROR_STRING := by decide

theorem cstr_AT_IPD_OK_STRING : cstr AT_IPD_OK_STRING = AT_IPD_OK_STRING := by decide

theorem cstr_AT_IPD_STRING : cstr AT_IPD_STRING = AT_IPD_STRING := by decide

/-- A token absent from a byte list is not found in any accumulator holding a prefix
of the list. -/
theorem strstr_found_take_false (x tok : List Nat) (j : Nat) (h : ¬ cstr tok <:+: x) :
    strstr_found (x.take j) tok = false := by
  rw [strstr_found_eq_false_iff]
  intro hc
  exact h (hc.trans ((cstr_initial _).isInfix.trans (List.take_prefix j x).isInfix))

/-- Inside a chunk the accumulator is `"+IPD,"` followed by the payload received so
far: a token starting with a byte foreign to `"+IPD,"` shows up only if the payload has it. -/
theorem strstr_found_ipd_take (p : List Nat) (j t0 : Nat) (ts : List Nat)
    (hc : cstr (t0 :: ts) = t0 :: ts) (h0 : t0 ∉ AT_IPD_STRING) (h : ¬ (t0 :: ts) <:+: p) :
    strstr_found (AT_IPD_STRING ++ p.take j) (t0 :: ts) = false := by
  rw [strstr_found_eq_false_iff, hc, cstr_append_of_no_zero _ _ (by decide)]
  intro hi
  have h1 := infix_of_infix_append t0 ts _ _ h0 hi
  exact h (h1.trans ((cstr_initial _).isInfix.trans (List.take_prefix j p).isInfix))

theorem recv_loop_frame (fuel : Nat) (s : RecvState) (p rest : List Nat) (hr : Ready s)
    (hin : s.input = frame p ++ rest) (hlen : p.length ≤ 999)
    (herr : ¬ AT_ERROR_STRING <:+: p) (hok : ¬ AT_IPD_OK_STRING <:+: p)
    (hrl : s.retLength + p.length < 4294967296) (hfuel : 4 ≤ fuel) :
    ∃ s', recv_loop (fuel + (5 + p.length)) s = recv_loop fuel s' ∧ Ready s' ∧
      s'.input = rest ∧ s'.Buffer = s.Buffer ++ p ∧
      s'.retLength = s.retLength + p.length ∧ s'.overrun = s.overrun := by
  have hin' : s.input = 43 :: ([73, 80, 68] ++ 44 :: (decimal p.length ++ 58 :: (p ++ rest))) := by
    rw [hin]; simp [frame, AT_IPD_STRING]
  obtain ⟨s1, e1, hnc1, hbuf1, hidx1, hin1, hB1, hrl1, hov1⟩ :=
    recv_loop_first (fuel + p.length + 1 + 3) s 43 _ hr hin'
  obtain ⟨s2, e2, hnc2, hbuf2, hidx2, hin2, hB2, hrl2, hov2⟩ :=
    recv_loop_idle_run [73, 80, 68] (fuel + p.length + 1) s1 [43] _ hnc1 hbuf1 hidx1
      (by decide) hin1 (by decide) (by decide)
  obtain ⟨s3, e3, hnc3, hlv3, hbuf3, hidx3, hin3, hB3, hrl3, hov3⟩ :=
    recv_loop_header (fuel + p.length) p.length s2 (p ++ rest) (by omega) hnc2 hbuf2 hidx2 hin2
      (by omega)
  obtain ⟨s4, e4, hnc4, hlv4, hbuf4, hidx4, hin4, hB4, hrl4, hov4⟩ :=
    recv_loop_payload_run p fuel 0 s3 AT_IPD_STRING rest hnc3 (by simpa using hlv3) hbuf3 hidx3
      (by simp [AT_IPD_STRING, MAX_BUFFER_SIZE]; omega) hin3
      (fun j _ => strstr_found_ipd_take p j 69 _ cstr_AT_ERROR_STRING (by decide) herr)
      (fun j _ => strstr_found_ipd_take p j 79 _ cstr_AT_IPD_OK_STRING (by decide) hok)
      (by omega)
  refine ⟨s4, ?_, Or.inr ⟨hnc4, hlv4⟩, hin4, by rw [hB4, hB3, hB2, hB1],
    by rw [hrl4, hrl3, hrl2, hrl1], by rw [hov4, hov3, hov2, hov1]⟩
  have hfu : fuel + (5 + p.length) = fuel + p.length + 1 + 3 + 1 := by omega
  have e2' : recv_loop (fuel + p.length + 1 + 3) s1 = recv_loop (fuel + p.length + 1) s2 := e2
  rw [hfu, e1, e2', e3, e4]

theorem recv_loop_frames (chunks : List (List Nat)) :
    ∀ (fuel : Nat) (s : RecvState) (rest : List Nat), Ready s →
    s.input = ipd_frames chunks ++ rest →
    (∀ p ∈ chunks, p.length ≤ 999) → (∀ p ∈ chunks, ¬ AT_ERROR_STRING <:+: p) →
    (∀ p ∈ chunks, ¬ AT_IPD_OK_STRING <:+: p) →
    s.retLength + (chunks.map List.length).sum < 4294967296 → 4 ≤ fuel →
    ∃ s', recv_loop (fuel + frame_iterations chunks) s = recv_loop fuel s' ∧ Ready s' ∧
      s'.input = rest ∧ s'.Buffer = s.Buffer ++ chunks.flatten ∧
      s'.retLength = s.retLength + (chunks.map List.length).sum ∧
      s'.overrun = s.overrun := by
  induction chunks with
  | nil =>
    intro fuel s rest hr hin _ _ _ _ _
    exact ⟨s, rfl, hr, by simpa [ipd_frames] using hin, by simp, by simp, rfl⟩
  | cons p chunks ih =>
    intro fuel s rest hr hin hlen herr hok hrl hfuel
    simp only [List.map_cons, List.sum_cons] at hrl
    have hin' : s.input = frame p ++ (ipd_frames chunks ++ rest) := by
      rw [hin]; simp [ipd_frames]
    obtain ⟨s1, e1, hr1, hin1, hB1, hrl1, hov1⟩ :=
      recv_loop_frame (fuel + frame_iterations chunks) s p _ hr hin'
        (hlen p (List.mem_cons_self _ _)) (herr p (List.mem_cons_self _ _))
        (hok p (List.mem_cons_self _ _)) (by omega) (by omega)
    obtain ⟨s2, e2, hr2, hin2, hB2, hrl2, hov2⟩ :=
      ih fuel s1 rest hr1 hin1 (fun q hq => hlen q (List.mem_cons_of_mem _ hq))
        (fun q hq => herr q (List.mem_cons_of_mem _ hq))
        (fun q hq => hok q (List.mem_cons_of_mem _ hq)) (by omega) hfuel
    refine ⟨s2, ?_, hr2, hin2, by simp [hB2, hB1], by simp [hrl2, hrl1]; omega,
      by rw [hov2, hov1]⟩
    have hfu : fuel + frame_iterations (p :: chunks) =
        fuel + frame_iterations chunks + (5 + p.length) := by
      simp [frame_iterations]; omega
    rw [hfu, e1, e2]

/-- After the frames: the marker, then bytes that bring neither a frame prefix nor an
error token, then no data. The loop reads them all and leaves with `ESP8266_OK`. -/
theorem recv_loop_marker_tail (fuel : Nat) (s : RecvState) (t : List Nat) (hr : Ready s)
    (hin : s.input = AT_IPD_OK_STRING ++ t)
    (hipd : ¬ AT_IPD_STRING <:+: AT_IPD_OK_STRING ++ t)
    (herr : ¬ AT_ERROR_STRING <:+: AT_IPD_OK_STRING ++ t)
    (hlen : t.length + 6 < MAX_BUFFER_SIZE) :
    ∃ s', recv_loop (fuel + 1 + (5 + t.length) + 1) s = some (ESP8266_OK, s') ∧
      s'.input = [] ∧ s'.Buffer = s.Buffer ∧ s'.retLength = s.retLength ∧
      s'.overrun = s.overrun := by
  have hin' : s.input = 79 :: (([75, 13, 10, 13, 10] ++ t) ++ []) := by
    rw [hin]; simp [AT_IPD_OK_STRING]
  have hlen5 : ([75, 13, 10, 13, 10] ++ t).length = 5 + t.length := by simp; omega
  obtain ⟨s1, e1, hnc1, hbuf1, hidx1, hin1, hB1, hrl1, hov1⟩ :=
    recv_loop_first (fuel + 1 + (5 + t.length)) s 79 _ hr hin'
  have key : ∀ j, [79] ++ ([75, 13, 10, 13, 10] ++ t).take j
      = (AT_IPD_OK_STRING ++ t).take (j + 1) := by
    intro j; simp [AT_IPD_OK_STRING]
  obtain ⟨s2, e2, hnc2, hbuf2, hidx2, hin2, hB2, hrl2, hov2⟩ :=
    recv_loop_idle_run ([75, 13, 10, 13, 10] ++ t) (fuel + 1) s1 [79] [] hnc1 hbuf1 hidx1
      (by rw [hlen5]; simp; omega) hin1
      (fun j _ => by
        rw [key]; exact strstr_found_take_false _ _ _ (by rw [cstr_AT_IPD_STRING]; exact hipd))
      (fun j _ => by
        rw [key]; exact strstr_found_take_false _ _ _ (by rw [cstr_AT_ERROR_STRING]; exact herr))
  rw [hlen5] at e2
  refine ⟨s2, ?_, hin2, by rw [hB2, hB1], by rw [hrl2, hrl1], by rw [hov2, hov1]⟩
  rw [e1, e2]
  exact recv_loop_nodata fuel s2 hin2 hnc2

theorem frame_iterations_le (chunks : List (List Nat)) :
    frame_iterations chunks ≤ (ipd_frames chunks).length := by
  induction chunks with
  | nil => simp [frame_iterations, ipd_frames]
  | cons p chunks ih =>
    simp only [frame_iterations, ipd_frames, List.map_cons, List.sum_cons, List.flatten_cons,
      List.length_append] at ih ⊢
    have : 5 + p.length ≤ (frame p).length := by
      simp [frame, AT_IPD_STRING]; omega
    omega

theorem ready_recv_init (input : List Nat) : Ready (recv_init input) :=
  Or.inl ⟨rfl, padded_nil.symm, rfl⟩

/-- The whole call on frames, the marker and a quiet tail. -/
theorem recv_data_frames_marker_tail (chunks : List (List Nat)) (t : List Nat)
    (fuel Length : Nat) (hlen : ∀ p ∈ chunks, p.length ≤ 999)
    (herr : ∀ p ∈ chunks, ¬ AT_ERROR_STRING <:+: p)
    (hok : ∀ p ∈ chunks, ¬ AT_IPD_OK_STRING <:+: p)
    (hsum : (chunks.map List.length).sum < 4294967296)
    (hipdt : ¬ AT_IPD_STRING <:+: AT_IPD_OK_STRING ++ t)
    (herrt : ¬ AT_ERROR_STRING <:+: AT_IPD_OK_STRING ++ t)
    (hlent : t.length + 6 < MAX_BUFFER_SIZE)
    (hfuel : (ipd_stream chunks ++ t).length < fuel) :
    recv_data fuel Length (ipd_stream chunks ++ t) =
      some ⟨ESP8266_OK, chunks.flatten, (chunks.map List.length).sum, [], false⟩ := by
  have h1 := frame_iterations_le chunks
  have h2 : (ipd_stream chunks ++ t).length = (ipd_frames chunks).length + 6 + t.length := by
    simp [ipd_stream, AT_IPD_OK_STRING]; omega
  obtain ⟨f, rfl⟩ : ∃ f, fuel = (f + 1 + (5 + t.length) + 1) + frame_iterations chunks :=
    ⟨fuel - (frame_iterations chunks + 7 + t.length), by omega⟩
  obtain ⟨s1, e1, hr1, hin1, hB1, hrl1, hov1⟩ :=
    recv_loop_frames chunks (f + 1 + (5 + t.length) + 1) (recv_init (ipd_stream chunks ++ t))
      (AT_IPD_OK_STRING ++ t) (ready_recv_init _) (by simp [recv_init, ipd_stream]) hlen herr hok
      (by simpa [recv_init] using hsum) (by omega)
  obtain ⟨s2, e2, hin2, hB2, hrl2, hov2⟩ :=
    recv_loop_marker_tail f s1 t hr1 hin1 hipdt herrt hlent
  unfold recv_data
  rw [e1, e2]
  simp [hin2, hB2, hrl2, hov2, hB1, hrl1, hov1, recv_init]

theorem send_at_loop_step (Token w : List Nat) (c : Nat) (rest : List Nat)
    (hlen : w.length + 1 < MAX_BUFFER_SIZE) :
    send_at_loop Token (padded w) w.length (c :: rest) =
      if strstr_found (w ++ [c]) Token then
        ⟨ESP8266_OK, padded (w ++ [c]), w.length + 1, rest⟩
      else if strstr_found (w ++ [c]) AT_ERROR_STRING then
        ⟨ESP8266_ERROR, padded (w ++ [c]), w.length + 1, rest⟩
      else send_at_loop Token (padded (w ++ [c])) (w.length + 1) rest := by
  have h1 : w.length < MAX_BUFFER_SIZE := by omega
  have h2 : (w ++ [c]).length < MAX_BUFFER_SIZE := by simp; omega
  have h3 : ¬ (w.length + 1 = MAX_BUFFER_SIZE) := by omega
  rw [send_at_loop]
  simp only [padded_set w c h1, strstr_found_padded _ _ h2, beq_iff_eq, h3, if_false]

theorem send_at_loop_full (Token w : List Nat) (c : Nat) (rest : List Nat)
    (hlen : w.length + 1 = MAX_BUFFER_SIZE) :
    send_at_loop Token (padded w) w.length (c :: rest) =
      ⟨ESP8266_ERROR, w ++ [c], MAX_BUFFER_SIZE, rest⟩ := by
  have h1 : w.length < MAX_BUFFER_SIZE := by omega
  have h4 : padded (w ++ [c]) = w ++ [c] := by
    simp [padded, hlen]
  rw [send_at_loop]
  simp only [padded_set w c h1, beq_iff_eq, hlen, if_true, h4]

/-- A run of response bytes during which the accumulator shows neither token. -/
theorem send_at_loop_quiet (Token pre : List Nat) :
    ∀ (w rest : List Nat), w.length + pre.length < MAX_BUFFER_SIZE →
    (∀ j, j ≤ pre.length → strstr_found (w ++ pre.take j) Token = false) →
    (∀ j, j ≤ pre.length → strstr_found (w ++ pre.take j) AT_ERROR_STRING = false) →
    send_at_loop Token (padded w) w.length (pre ++ rest) =
      send_at_loop Token (padded (w ++ pre)) (w.length + pre.length) rest := by
  induction pre with
  | nil => intro w rest _ _ _; simp
  | cons c pre ih =>
    intro w rest hlen hT hE
    simp only [List.length_cons] at hlen hT hE
    have hT1 : strstr_found (w ++ [c]) Token = false := by simpa using hT 1 (by omega)
    have hE1 : strstr_found (w ++ [c]) AT_ERROR_STRING = false := by simpa using hE 1 (by omega)
    rw [List.cons_append, send_at_loop_step Token w c _ (by omega)]
    simp only [hT1, hE1, if_false, Bool.false_eq_true]
    have := ih (w ++ [c]) rest (by simp; omega)
      (fun j hj => by simpa using hT (j + 1) (by omega))
      (fun j hj => by simpa using hE (j + 1) (by omega))
    simp only [List.length_append, List.length_singleton, List.append_assoc,
      List.singleton_append] at this
    rw [this]
    simp only [List.length_cons]
    congr 1
    omega

/-- The success token shows up, within the capacity, no later than the error token. -/
theorem send_at_loop_ok (Token : List Nat) (resp : List Nat) :
    ∀ (w : List Nat) (k : Nat), 1 ≤ k → k ≤ resp.length → w.length + k < MAX_BUFFER_SIZE →
    strstr_found (w ++ resp.take k) Token = true →
    (∀ j, 1 ≤ j → j < k → strstr_found (w ++ resp.take j) AT_ERROR_STRING = false) →
    (send_at_loop Token (padded w) w.length resp).status = ESP8266_OK := by
  induction resp with
  | nil => intro w k h1 hk; simp at hk; omega
  | cons c rest ih =>
    intro w k h1 hk hlen hT hE
    simp only [List.length_cons] at hk
    rw [send_at_loop_step Token w c rest (by omega)]
    by_cases hf : strstr_found (w ++ [c]) Token = true
    · simp [hf]
    · simp only [hf, if_false]
      have hk2 : 2 ≤ k := by
        rcases Nat.lt_or_ge k 2 with h | h
        · have : k = 1 := by omega
          subst this
          simp at hT
          exact absurd hT hf
        · exact h
      have hE1 : strstr_found (w ++ [c]) AT_ERROR_STRING = false := by
        simpa using hE 1 (by omega) (by omega)
      simp only [hE1, if_false, Bool.false_eq_true]
      obtain ⟨k', rfl⟩ : ∃ k', k = k' + 1 := ⟨k - 1, by omega⟩
      have := ih (w ++ [c]) k' (by omega) (by omega) (by simp; omega)
        (by simpa using hT)
        (fun j hj1 hj2 => by simpa using hE (j + 1) (by omega) (by omega))
      simpa using this

/-- The error token shows up, within the capacity, strictly before the success token. -/
theorem send_at_loop_error (Token : List Nat) (resp : List Nat) :
    ∀ (w : List Nat) (k : Nat), 1 ≤ k → k ≤ resp.length → w.length + k < MAX_BUFFER_SIZE →
    strstr_found (w ++ resp.take k) AT_ERROR_STRING = true →
    (∀ j, 1 ≤ j → j ≤ k → strstr_found (w ++ resp.take j) Token = false) →
    (send_at_loop Token (padded w) w.length resp).status = ESP8266_ERROR := by
  induction resp with
  | nil => intro w k h1 hk; simp at hk; omega
  | cons c rest ih =>
    intro w k h1 hk hlen hE hT
    simp only [List.length_cons] at hk
    rw [send_at_loop_step Token w c rest (by omega)]
    have hT1 : strstr_found (w ++ [c]) Token = false := by
      simpa using hT 1 (by omega) (by omega)
    simp only [hT1, if_false, Bool.false_eq_true]
    by_cases hf : strstr_found (w ++ [c]) AT_ERROR_STRING = true
    · simp [hf]
    · simp only [hf, if_false]
      have hk2 : 2 ≤ k := by
        rcases Nat.lt_or_ge k 2 with h | h
        · have : k = 1 := by omega
          subst this
          simp at hE
          exact absurd hE hf
        · exact h
      obtain ⟨k', rfl⟩ : ∃ k', k = k' + 1 := ⟨k - 1, by omega⟩
      have := ih (w ++ [c]) k' (by omega) (by omega) (by simp; omega)
        (by simpa using hE)
        (fun j hj1 hj2 => by simpa using hT (j + 1) (by omega) (by omega))
      simpa using this

theorem send_at_loop_overflow_aux (Token pre : List Nat) (c : Nat) (rest : List Nat)
    (hpre : pre.length + 1 = MAX_BUFFER_SIZE)
    (hT : ∀ j, j ≤ pre.length → strstr_found (pre.take j) Token = false)
    (hE : ∀ j, j ≤ pre.length → strstr_found (pre.take j) AT_ERROR_STRING = false) :
    send_at_loop Token (padded []) 0 (pre ++ c :: rest) =
      ⟨ESP8266_ERROR, pre ++ [c], MAX_BUFFER_SIZE, rest⟩ := by
  have hq := send_at_loop_quiet Token pre [] (c :: rest) (by simp; omega)
    (fun j hj => by simpa using hT j hj) (fun j hj => by simpa using hE j hj)
  simp only [List.length_nil, List.nil_append, Nat.zero_add] at hq
  rw [hq]
  exact send_at_loop_full Token pre c rest hpre

/-- The accumulator fills up before either token shows: the loop stops at the
`MAX_BUFFER_SIZE`-th byte with an error. -/
theorem send_at_loop_overflow (Token response : List Nat)
    (hlen : MAX_BUFFER_SIZE ≤ response.length)
    (hT : ∀ j, j < MAX_BUFFER_SIZE → strstr_found (response.take j) Token = false)
    (hE : ∀ j, j < MAX_BUFFER_SIZE → strstr_found (response.take j) AT_ERROR_STRING = false) :
    send_at_loop Token (padded []) 0 response =
      ⟨ESP8266_ERROR, response.take MAX_BUFFER_SIZE, MAX_BUFFER_SIZE,
        response.drop MAX_BUFFER_SIZE⟩ := by
  have hM : MAX_BUFFER_SIZE = 8191 + 1 := by decide
  obtain ⟨c, hc⟩ : ∃ c, response.drop 8191 = c :: response.drop MAX_BUFFER_SIZE := by
    have h1 : 8191 < response.length := by omega
    refine ⟨response[8191], ?_⟩
    rw [hM, ← List.drop_eq_getElem_cons h1]
  have hsplit : response.take 8191 ++ c :: response.drop MAX_BUFFER_SIZE = response := by
    rw [← hc, List.take_append_drop]
  have htl : (response.take 8191).length = 8191 := by
    rw [List.length_take]; omega
  have htake : response.take 8191 ++ [c] = response.take MAX_BUFFER_SIZE := by
    have h2 : (response.take 8191 ++ c :: response.drop MAX_BUFFER_SIZE).take MAX_BUFFER_SIZE
        = response.take 8191 ++ [c] := by
      rw [List.take_append_eq_append_take, htl, hM]
      simp [List.take_take]
    rw [← h2, hsplit]
  have haux := send_at_loop_overflow_aux Token (response.take 8191) c
    (response.drop MAX_BUFFER_SIZE) (by rw [htl, hM])
    (fun j hj => by
      rw [htl] at hj
      simpa [List.take_take, Nat.min_eq_left hj] using hT j (by omega))
    (fun j hj => by
      rw [htl] at hj
      simpa [List.take_take, Nat.min_eq_left hj] using hE j (by omega))
  rw [hsplit, htake] at haux
  exact haux

theorem io_run_append (a b : List IoEvent) (st : IoState) :
    io_run (a ++ b) st = ((io_run a st).1 ++ (io_run b (io_run a st).2).1,
      (io_run b (io_run a st).2).2) := by
  induction a generalizing st with
  | nil => simp [io_run]
  | cons e a ih =>
    simp only [List.cons_append, io_run]
    rcases h : io_step st e with ⟨_ | p, st1⟩
    · simp [ih]
    · simp [ih]

/-- A read while `head != tail`, away from the end of the storage: position `head` is
taken and `head` advances by one. -/
theorem io_step_recv (data : List Nat) (tail head tp : Nat) (hne : head ≠ tail)
    (hlt : head + 1 < RING_BUFFER_SIZE) :
    io_step ⟨⟨data, tail, head⟩, tp⟩ IoEvent.recv =
      (some head, ⟨⟨data, tail, head + 1⟩, tp⟩) := by
  have h1 : (head + 1) % 65536 = head + 1 := Nat.mod_eq_of_lt (by
    have : RING_BUFFER_SIZE = 8192 := by decide
    omega)
  have h2 : ¬ (RING_BUFFER_SIZE ≤ head + 1) := by omega
  simp [io_step, esp8266_io_recv, io_recv_byte, hne, h1, h2]

/-- A read at the last position of the storage: `head` wraps to 0. -/
theorem io_step_recv_wrap (data : List Nat) (tail tp : Nat) (hne : 8191 ≠ tail) :
    io_step ⟨⟨data, tail, 8191⟩, tp⟩ IoEvent.recv =
      (some 8191, ⟨⟨data, tail, 0⟩, tp⟩) := by
  have h2 : RING_BUFFER_SIZE ≤ 8192 := by decide
  simp [io_step, esp8266_io_recv, io_recv_byte, hne, h2]

theorem io_run_recvs (data : List Nat) (tail tp : Nat) (k : Nat) :
    ∀ head, head + k < RING_BUFFER_SIZE → head + k ≤ tail →
    io_run (List.replicate k IoEvent.recv) ⟨⟨data, tail, head⟩, tp⟩ =
      (List.range' head k, ⟨⟨data, tail, head + k⟩, tp⟩) := by
  induction k with
  | zero => intro head _ _; simp [io_run]
  | succ k ih =>
    intro head h1 h2
    rw [List.replicate_succ, io_run, io_step_recv data tail head tp (by omega) (by omega)]
    simp only
    rw [ih (head + 1) (by omega) (by omega)]
    simp [List.range'_succ, Nat.add_assoc, Nat.add_comm 1 k]

theorem io_run_full (data : List Nat) :
    io_run (IoEvent.rx_event 8192 :: List.replicate 8193 IoEvent.recv) (io_start data) =
      (List.range 8192 ++ [0], ⟨⟨data, 8192, 1⟩, 8192⟩) := by
  have h0 : io_step (io_start data) (IoEvent.rx_event 8192) =
      (none, ⟨⟨data, 8192, 0⟩, 8192⟩) := by
    simp [io_step, io_start, io_boot, esp8266_io_init, HAL_UARTEx_RxEventCallback]
  have hrep : List.replicate 8193 IoEvent.recv =
      List.replicate 8191 IoEvent.recv ++ [IoEvent.recv, IoEvent.recv] := by
    rw [show (8193 : Nat) = 8191 + 2 from rfl, List.replicate_add]
    rfl
  have h1 := io_run_recvs data 8192 8192 8191 0 (by decide) (by decide)
  rw [io_run, h0]
  simp only
  rw [hrep, io_run_append, h1]
  simp only [Nat.zero_add]
  rw [io_run, io_step_recv_wrap data 8192 8192 (by decide)]
  simp only
  rw [io_run, io_step_recv data 8192 0 8192 (by decide) (by decide)]
  simp only [io_run]
  have : List.range 8192 = List.range' 0 8191 ++ [8191] := by
    rw [List.range_eq_range', show (8192 : Nat) = 8191 + 1 from rfl, List.range'_concat]
  rw [this]
  simp

/-! ## Further lemmas for the statements below -/

theorem not_infix_of_not_mem (b : Nat) (tok x : List Nat) (hb : b ∈ tok) (hx : b ∉ x) :
    ¬ tok <:+: x := fun h => hx (h.subset hb)

theorem strstr_found_take_false_of_not_mem (b : Nat) (tok x : List Nat) (j : Nat)
    (hb : b ∈ cstr tok) (hx : b ∉ x) : strstr_found (x.take j) tok = false :=
  strstr_found_take_false x tok j (not_infix_of_not_mem b _ _ hb hx)

/-- With no data and a last byte other than `':'` the length loop never ends. -/
theorem read_length_stall (fuel : Nat) :
    ∀ s : RecvState, s.input = [] → s.RxChar ≠ 58 → read_length fuel s = none := by
  induction fuel with
  | zero => intro s _ _; rfl
  | succ fuel ih =>
    intro s hin hrx
    rw [read_length]
    simp only [hin, bne_iff_ne, ne_eq, hrx, not_false_eq_true, if_true]
    exact ih _ rfl hrx

/-- A header that stops after the digit `1`: the length loop never ends. -/
theorem read_length_one_digit (fuel : Nat) (s : RecvState) (hin : s.input = [49]) :
    read_length fuel s = none := by
  cases fuel with
  | zero => rfl
  | succ fuel =>
    rw [read_length]
    simp only [hin, bne_iff_ne, ne_eq, Nat.reduceEqDiff, not_false_eq_true, if_true]
    exact read_length_stall fuel _ rfl (by show (49 : Nat) ≠ 58; decide)

theorem recv_loop_truncated_header (fuel : Nat) :
    recv_loop fuel (recv_init [43, 73, 80, 68, 44, 49]) = none := by
  cases fuel with
  | zero => rfl
  | succ f1 =>
    obtain ⟨s1, e1, hnc1, hbuf1, hidx1, hin1, -, -, -⟩ :=
      recv_loop_first f1 (recv_init [43, 73, 80, 68, 44, 49]) 43 [73, 80, 68, 44, 49]
        (ready_recv_init _) rfl
    rw [e1]
    cases f1 with
    | zero => rfl
    | succ f2 =>
      obtain ⟨s2, e2, hnc2, hbuf2, hidx2, hin2, -, -, -⟩ :=
        recv_loop_idle f2 s1 [43] 73 [80, 68, 44, 49] hnc1 hbuf1 hidx1 (by decide) hin1
          (by decide) (by decide)
      rw [e2]
      cases f2 with
      | zero => rfl
      | succ f3 =>
        obtain ⟨s3, e3, hnc3, hbuf3, hidx3, hin3, -, -, -⟩ :=
          recv_loop_idle f3 s2 [43, 73] 80 [68, 44, 49] hnc2 hbuf2 hidx2 (by decide) hin2
            (by decide) (by decide)
        rw [e3]
        cases f3 with
        | zero => rfl
        | succ f4 =>
          obtain ⟨s4, e4, hnc4, hbuf4, hidx4, hin4, -, -, -⟩ :=
            recv_loop_idle f4 s3 [43, 73, 80] 68 [44, 49] hnc3 hbuf3 hidx3 (by decide) hin3
              (by decide) (by decide)
          rw [e4]
          cases f4 with
          | zero => rfl
          | succ f5 =>
            obtain ⟨input, rx, idx, ls, lv, i, nc, rxc, buf, rl, ov⟩ := s4
            simp only at hnc4 hbuf4 hidx4 hin4
            subst hnc4 hbuf4 hidx4 hin4
            have hset : (padded [43, 73, 80, 68]).set 4 44 = padded AT_IPD_STRING :=
              padded_set [43, 73, 80, 68] 44 (by decide)
            have hlen : AT_IPD_STRING.length < MAX_BUFFER_SIZE := by decide
            have hipd : strstr_found (padded AT_IPD_STRING) AT_IPD_STRING = true := by
              rw [strstr_found_padded _ _ hlen]; decide
            have h5 : ¬ ((5 : Nat) = MAX_BUFFER_SIZE) := by decide
            have hrl := read_length_one_digit f5
              ⟨[49], padded AT_IPD_STRING, 5, memset0 4, lv, 0, false, 44, buf, rl, ov⟩ rfl
            rw [recv_loop]
            simp [recv_store, recv_header, hset, hipd, h5, hrl]

theorem mem_replicate_append_elim (n a b : Nat) (x : List Nat)
    (h : b ∈ List.replicate n a ++ x) : b = a ∨ b ∈ x := by
  rcases List.mem_append.mp h with h | h
  · exact Or.inl (List.eq_of_mem_replicate h)
  · exact Or.inr h

/-- The response of 8188 bytes `'A'` followed by `"OK\r\n"`: the accumulator is full
when the last byte of the token arrives. -/
theorem send_at_loop_token_at_capacity :
    send_at_loop AT_OK_STRING (padded []) 0 (List.replicate 8188 65 ++ AT_OK_STRING) =
      ⟨ESP8266_ERROR, List.replicate 8188 65 ++ AT_OK_STRING, MAX_BUFFER_SIZE, []⟩ := by
  have hpre : (List.replicate 8188 65 ++ [79, 75, 13]).length + 1 = MAX_BUFFER_SIZE := by
    rw [List.length_append, List.length_replicate]
    rfl
  have h := send_at_loop_overflow_aux AT_OK_STRING (List.replicate 8188 65 ++ [79, 75, 13]) 10 []
    hpre
    (fun j _ => strstr_found_take_false_of_not_mem 10 _ _ j (by decide) (by
      intro hm
      rcases mem_replicate_append_elim _ _ _ _ hm with h | h
      · exact absurd h (by decide)
      · exact absurd h (by decide)))
    (fun j _ => strstr_found_take_false_of_not_mem 69 _ _ j (by decide) (by
      intro hm
      rcases mem_replicate_append_elim _ _ _ _ hm with h | h
      · exact absurd h (by decide)
      · exact absurd h (by decide)))
  have e : (List.replicate 8188 65 ++ [79, 75, 13]) ++ [10] =
      List.replicate 8188 65 ++ AT_OK_STRING := by
    rw [List.append_assoc]; rfl
  rw [e] at h
  exact h

/-- The response of 8192 bytes `'A'` fills the accumulator. -/
theorem send_at_loop_replicate_overflow :
    (send_at_loop AT_OK_STRING (padded []) 0 (List.replicate 8192 65)).status
      = ESP8266_ERROR := by
  have h := send_at_loop_overflow AT_OK_STRING (List.replicate 8192 65)
    (by rw [List.length_replicate]; decide)
    (fun j _ => strstr_found_take_false_of_not_mem 79 _ _ j (by decide)
      (fun hm => absurd (List.eq_of_mem_replicate hm) (by decide)))
    (fun j _ => strstr_found_take_false_of_not_mem 69 _ _ j (by decide)
      (fun hm => absurd (List.eq_of_mem_replicate hm) (by decide)))
  rw [h]

theorem memset0_eq_padded : memset0 MAX_BUFFER_SIZE = padded [] := padded_nil.symm

theorem send_at_cmd_eq_loop (rx_buffer Token response : List Nat) :
    send_at_cmd rx_buffer true Token response = send_at_loop Token (padded []) 0 response := by
  simp only [send_at_cmd, memset0_eq_padded, Bool.not_true, Bool.false_eq_true, if_false]

theorem send_at_loop_status (Token : List Nat) (response : List Nat) :
    ∀ (rx_buffer : List Nat) (idx : Nat),
    (send_at_loop Token rx_buffer idx response).status = ESP8266_OK ∨
    (send_at_loop Token rx_buffer idx response).status = ESP8266_ERROR := by
  induction response with
  | nil => intro rx idx; right; rfl
  | cons c rest ih =>
    intro rx idx
    rw [send_at_loop]
    split
    · right; rfl
    · split
      · left; rfl
      · split
        · right; rfl
        · exact ih _ _

/-! ## Lemmas on the transactions, the command buffer and the ring buffer -/

/-- What a run of `send_at_loop` leaves: it has consumed some `m` bytes, the
accumulator holds the bytes it had and those `m` bytes followed by zeros, and the
rest of the response is left unread. -/
theorem send_at_loop_shape (Token : List Nat) (resp : List Nat) :
    ∀ w : List Nat, w.length < MAX_BUFFER_SIZE →
    ∃ m, m ≤ resp.length ∧ w.length + m ≤ MAX_BUFFER_SIZE ∧
      (send_at_loop Token (padded w) w.length resp).rx_buffer = padded (w ++ resp.take m) ∧
      (send_at_loop Token (padded w) w.length resp).idx = w.length + m ∧
      (send_at_loop Token (padded w) w.length resp).rest = resp.drop m := by
  induction resp with
  | nil =>
    intro w hw
    exact ⟨0, by simp, by omega, by simp [send_at_loop], by simp [send_at_loop],
      by simp [send_at_loop]⟩
  | cons c rest ih =>
    intro w hw
    by_cases hfull : w.length + 1 = MAX_BUFFER_SIZE
    · refine ⟨1, by simp, by omega, ?_, ?_, ?_⟩
      · rw [send_at_loop_full Token w c rest hfull]
        simp [padded, hfull]
      · rw [send_at_loop_full Token w c rest hfull]
        exact hfull.symm
      · rw [send_at_loop_full Token w c rest hfull]
        simp
    · have hlt : w.length + 1 < MAX_BUFFER_SIZE := by omega
      rw [send_at_loop_step Token w c rest hlt]
      by_cases hT : strstr_found (w ++ [c]) Token = true
      · exact ⟨1, by simp, by omega, by simp [hT], by simp [hT], by simp [hT]⟩
      · by_cases hE : strstr_found (w ++ [c]) AT_ERROR_STRING = true
        · exact ⟨1, by simp, by omega, by simp [hT, hE], by simp [hT, hE], by simp [hT, hE]⟩
        · obtain ⟨m, hm1, hm2, h1, h2, h3⟩ := ih (w ++ [c]) (by simpa using hlt)
          simp only [List.length_append, List.length_singleton] at hm2 h1 h2 h3
          refine ⟨m + 1, by simpa using hm1, by omega, ?_, ?_, ?_⟩
          · simp only [hT, hE, if_false, Bool.false_eq_true]
            rw [h1]; simp
          · simp only [hT, hE, if_false, Bool.false_eq_true]
            rw [h2]; omega
          · simp only [hT, hE, if_false, Bool.false_eq_true]
            rw [h3]; simp

/-- The error token is first completed at byte `k`, within the capacity, and the
success token has not shown up: the loop stops there. -/
theorem send_at_loop_error_at (Token response : List Nat) (k : Nat)
    (hk : k < MAX_BUFFER_SIZE) (hnul : ∀ c ∈ response.take k, c ≠ 0)
    (hE : AT_ERROR_STRING <:+: response.take k)
    (hfirst : ∀ j, j < k → ¬ AT_ERROR_STRING <:+: response.take j)
    (hT : ¬ cstr Token <:+: response.take k) :
    send_at_loop Token (padded []) 0 response =
      ⟨ESP8266_ERROR, padded (response.take k), k, response.drop k⟩ := by
  have hk1 : 1 ≤ k := by
    rcases Nat.eq_zero_or_pos k with h | h
    · subst h
      have := hE.length_le
      simp [AT_ERROR_STRING] at this
    · exact h
  have hkl : k ≤ response.length := by
    by_contra hcon
    have hlt : response.length < k := by omega
    apply hfirst response.length hlt
    rw [List.take_of_length_le (le_refl _)]
    rw [List.take_of_length_le (by omega)] at hE
    exact hE
  obtain ⟨k', rfl⟩ : ∃ k', k = k' + 1 := ⟨k - 1, by omega⟩
  obtain ⟨c, hc⟩ : ∃ c, response.drop k' = c :: response.drop (k' + 1) := by
    have h1 : k' < response.length := by omega
    exact ⟨response[k'], by rw [← List.drop_eq_getElem_cons h1]⟩
  have hsplit : response.take k' ++ c :: response.drop (k' + 1) = response := by
    rw [← hc, List.take_append_drop]
  have htl : (response.take k').length = k' := by
    rw [List.length_take]; omega
  have htake : response.take k' ++ [c] = response.take (k' + 1) := by
    have h2 : (response.take k' ++ c :: response.drop (k' + 1)).take (k' + 1)
        = response.take k' ++ [c] := by
      rw [List.take_append_eq_append_take, htl]
      simp [List.take_take]
    rw [← h2, hsplit]
  have hq := send_at_loop_quiet Token (response.take k') [] (c :: response.drop (k' + 1))
    (by simp [htl]; omega)
    (fun j hj => by
      rw [htl] at hj
      have := strstr_found_take_false (response.take (k' + 1)) Token j hT
      simpa [List.take_take, Nat.min_eq_left hj, Nat.min_eq_left (Nat.le_succ_of_le hj)]
        using this)
    (fun j hj => by
      rw [htl] at hj
      have := strstr_found_take_false (response.take j) AT_ERROR_STRING j
        (by rw [cstr_AT_ERROR_STRING]; exact hfirst j (by omega))
      simpa [List.take_take, Nat.min_eq_left hj] using this)
  simp only [List.length_nil, List.nil_append, Nat.zero_add] at hq
  rw [hsplit, htl] at hq
  have hq' : send_at_loop Token (padded []) 0 response =
      send_at_loop Token (padded (response.take k')) (response.take k').length
        (c :: response.drop (k' + 1)) := by
    rw [htl]; exact hq
  rw [hq', send_at_loop_step Token _ c _ (by rw [htl]; omega), htake, htl]
  have hT' : strstr_found (response.take (k' + 1)) Token = false := by
    rw [strstr_found_eq_false_iff]
    intro h
    exact hT (h.trans (cstr_initial _).isInfix)
  have hE' : strstr_found (response.take (k' + 1)) AT_ERROR_STRING = true := by
    rw [strstr_found_iff, cstr_AT_ERROR_STRING, cstr_of_no_zero _ hnul]
    exact hE
  simp [hT', hE']

/-- With `k` free places left in the accumulator, the loop on any transport returns
within `k` iterations, with `idx` at most `MAX_BUFFER_SIZE`. -/
theorem send_at_loop_on_returns (Token : List Nat) (recv : Nat → Option Nat) (k : Nat) :
    ∀ (rx_buffer : List Nat) (idx n : Nat), idx + k = MAX_BUFFER_SIZE → 1 ≤ k →
    ∃ r : AtOutcome, (∀ fuel, k ≤ fuel → send_at_loop_on Token recv fuel rx_buffer idx n = some r) ∧
      r.idx ≤ MAX_BUFFER_SIZE ∧ r.idx ≤ idx + k ∧
      (r.status = ESP8266_OK ∨ r.status = ESP8266_ERROR) := by
  induction k with
  | zero => intro _ _ _ _ h; omega
  | succ k ih =>
    intro rx idx n hk _
    rcases hr : recv n with _ | c
    · refine ⟨⟨ESP8266_ERROR, rx, idx⟩, ?_, by simp only; omega, by simp only; omega, Or.inr rfl⟩
      intro fuel hf
      obtain ⟨f, rfl⟩ : ∃ f, fuel = f + 1 := ⟨fuel - 1, by omega⟩
      simp [send_at_loop_on, hr]
    · by_cases hfull : idx + 1 = MAX_BUFFER_SIZE
      · refine ⟨⟨ESP8266_ERROR, rx.set idx c, idx + 1⟩, ?_, by simp only; omega,
          by simp only; omega, Or.inr rfl⟩
        intro fuel hf
        obtain ⟨f, rfl⟩ : ∃ f, fuel = f + 1 := ⟨fuel - 1, by omega⟩
        simp [send_at_loop_on, hr, hfull]
      · by_cases hT : strstr_found (rx.set idx c) Token = true
        · refine ⟨⟨ESP8266_OK, rx.set idx c, idx + 1⟩, ?_, by simp only; omega,
            by simp only; omega, Or.inl rfl⟩
          intro fuel hf
          obtain ⟨f, rfl⟩ : ∃ f, fuel = f + 1 := ⟨fuel - 1, by omega⟩
          simp [send_at_loop_on, hr, hfull, hT]
        · by_cases hE : strstr_found (rx.set idx c) AT_ERROR_STRING = true
          · refine ⟨⟨ESP8266_ERROR, rx.set idx c, idx + 1⟩, ?_, by simp only; omega,
              by simp only; omega, Or.inr rfl⟩
            intro fuel hf
            obtain ⟨f, rfl⟩ : ∃ f, fuel = f + 1 := ⟨fuel - 1, by omega⟩
            simp [send_at_loop_on, hr, hfull, hT, hE]
          · obtain ⟨r, h1, h2, h3, h4⟩ := ih (rx.set idx c) (idx + 1) (n + 1) (by omega) (by omega)
            refine ⟨r, ?_, h2, by omega, h4⟩
            intro fuel hf
            obtain ⟨f, rfl⟩ : ∃ f, fuel = f + 1 := ⟨fuel - 1, by omega⟩
            simp only [send_at_loop_on, hr, beq_iff_eq, hfull, if_false, hT, hE]
            exact h1 f (by omega)

/-- On the transport of a finite response the call-by-call loop does what the loop
on the list does. -/
theorem send_at_loop_on_transport_of (Token : List Nat) (resp : List Nat) :
    ∀ (fuel : Nat) (rx_buffer : List Nat) (idx n : Nat) (recv : Nat → Option Nat),
    (∀ i, recv (n + i) = resp[i]?) → resp.length < fuel →
    send_at_loop_on Token recv fuel rx_buffer idx n =
      some ⟨(send_at_loop Token rx_buffer idx resp).status,
        (send_at_loop Token rx_buffer idx resp).rx_buffer,
        (send_at_loop Token rx_buffer idx resp).idx⟩ := by
  induction resp with
  | nil =>
    intro fuel rx idx n recv hrecv hf
    obtain ⟨f, rfl⟩ : ∃ f, fuel = f + 1 := ⟨fuel - 1, by simp at hf; omega⟩
    have h0 : recv n = none := by simpa using hrecv 0
    simp [send_at_loop_on, send_at_loop, h0]
  | cons c rest ih =>
    intro fuel rx idx n recv hrecv hf
    simp only [List.length_cons] at hf
    obtain ⟨f, rfl⟩ : ∃ f, fuel = f + 1 := ⟨fuel - 1, by omega⟩
    have h0 : recv n = some c := by simpa using hrecv 0
    have hnext : ∀ i, recv (n + 1 + i) = rest[i]? := by
      intro i
      have := hrecv (i + 1)
      simpa [Nat.add_assoc, Nat.add_comm 1 i] using this
    rw [send_at_loop_on, send_at_loop]
    simp only [h0]
    split
    · rfl
    · split
      · rfl
      · split
        · rfl
        · exact ih f _ _ _ recv hnext (by omega)

theorem cstr_no_zero (a : List Nat) : ∀ c ∈ cstr a, c ≠ 0 := by
  intro c hc
  have := List.mem_takeWhile_imp hc
  simpa using this

theorem store_bytes_zeros (cs : List Nat) :
    ∀ (pre : List Nat) (m : Nat), cs.length ≤ m →
    store_bytes (pre ++ List.replicate m 0) pre.length cs =
      pre ++ cs ++ List.replicate (m - cs.length) 0 := by
  induction cs with
  | nil => intro pre m _; simp [store_bytes]
  | cons c cs ih =>
    intro pre m hm
    simp only [List.length_cons] at hm
    obtain ⟨m', rfl⟩ : ∃ m', m = m' + 1 := ⟨m - 1, by omega⟩
    rw [store_bytes, List.set_append_right _ _ (le_refl _)]
    simp only [Nat.sub_self, List.replicate_succ, List.set_cons_zero]
    have h := ih (pre ++ [c]) m' (by omega)
    simp only [List.length_append, List.length_singleton, List.append_assoc,
      List.singleton_append] at h
    rw [h]
    simp

/-- A command that fits: `at_cmd` holds it, NUL-terminated and zero-filled, and
nothing is stored outside the array. -/
theorem sprintf_at_cmd_fits (out : List Nat) (h : out.length < MAX_AT_CMD_SIZE) :
    sprintf_at_cmd out =
      (out ++ List.replicate (MAX_AT_CMD_SIZE - out.length) 0, false) := by
  have h1 := store_bytes_zeros (out ++ [0]) [] MAX_AT_CMD_SIZE (by simp; omega)
  simp only [List.nil_append, List.length_nil, List.length_append, List.length_singleton] at h1
  have h2 : ¬ (MAX_AT_CMD_SIZE < (out ++ [0]).length) := by simp; omega
  obtain ⟨m, hm⟩ : ∃ m, MAX_AT_CMD_SIZE - out.length = m + 1 :=
    ⟨MAX_AT_CMD_SIZE - out.length - 1, by omega⟩
  have hm' : MAX_AT_CMD_SIZE - (out.length + 1) = m := by omega
  simp only [sprintf_at_cmd, memset0, h1, h2, decide_False, hm, hm', List.replicate_succ,
    List.append_assoc, List.singleton_append]

theorem format_CWJAP_length (Ssid Password : List Nat) :
    (format_CWJAP Ssid Password).length = 16 + (cstr Ssid).length + (cstr Password).length := by
  simp [format_CWJAP]; omega

theorem format_CWJAP_no_zero (Ssid Password : List Nat) :
    ∀ c ∈ format_CWJAP Ssid Password, c ≠ 0 := by
  intro c hc
  simp only [format_CWJAP, List.mem_append] at hc
  rcases hc with ((((h | h) | h) | h) | h) | h
  · intro e; subst e; simp at h
  · exact cstr_no_zero _ c h
  · intro e; subst e; simp at h
  · exact cstr_no_zero _ c h
  · intro e; subst e; simp at h
  · intro e; subst e; simp at h

theorem cstr_append_zeros' (w : List Nat) (n : Nat) (h : 0 < n) :
    cstr (w ++ List.replicate n 0) = cstr w := by
  obtain ⟨m, rfl⟩ : ∃ m, n = m + 1 := ⟨n - 1, by omega⟩
  exact cstr_append_zeros w m

theorem esp8266_io_recv_length_le (L : Nat) :
    ∀ st : IoState, (esp8266_io_recv L st).1.length ≤ L := by
  induction L with
  | zero => intro st; simp [esp8266_io_recv]
  | succ L ih =>
    intro st
    rw [esp8266_io_recv]
    rcases h : io_recv_byte st with ⟨_ | c, st1⟩
    · simp only
      exact Nat.le_succ_of_le (ih st1)
    · simp only [List.length_cons]
      exact Nat.succ_le_succ (ih st1)

theorem io_recv_byte_tail (st : IoState) :
    (io_recv_byte st).2.wifi_rx_buffer.tail = st.wifi_rx_buffer.tail ∧
    (io_recv_byte st).2.wifi_rx_buffer.data = st.wifi_rx_buffer.data ∧
    (io_recv_byte st).2.tail_pos = st.tail_pos := by
  simp only [io_recv_byte]
  by_cases h : (st.wifi_rx_buffer.head != st.wifi_rx_buffer.tail) = true
  · simp [h]
  · simp [h]

theorem esp8266_io_recv_tail (L : Nat) :
    ∀ st : IoState, (esp8266_io_recv L st).2.wifi_rx_buffer.tail = st.wifi_rx_buffer.tail ∧
      (esp8266_io_recv L st).2.wifi_rx_buffer.data = st.wifi_rx_buffer.data ∧
      (esp8266_io_recv L st).2.tail_pos = st.tail_pos := by
  induction L with
  | zero => intro st; simp [esp8266_io_recv]
  | succ L ih =>
    intro st
    rw [esp8266_io_recv]
    have hb := io_recv_byte_tail st
    rcases h : io_recv_byte st with ⟨_ | c, st1⟩
    · rw [h] at hb
      simp only at hb ⊢
      obtain ⟨h1, h2, h3⟩ := ih st1
      exact ⟨h1.trans hb.1, h2.trans hb.2.1, h3.trans hb.2.2⟩
    · rw [h] at hb
      simp only at hb ⊢
      obtain ⟨h1, h2, h3⟩ := ih st1
      exact ⟨h1.trans hb.1, h2.trans hb.2.1, h3.trans hb.2.2⟩

theorem HAL_UARTEx_RxEventCallback_head (isWifi : Bool) (size : Nat) (st : IoState) :
    (HAL_UARTEx_RxEventCallback isWifi size st).wifi_rx_buffer.head = st.wifi_rx_buffer.head ∧
    (HAL_UARTEx_RxEventCallback isWifi size st).wifi_rx_buffer.data = st.wifi_rx_buffer.data := by
  unfold HAL_UARTEx_RxEventCallback
  split
  · split
    · simp only
      split <;> simp
    · simp
  · simp

theorem io_recv_byte_head_lt (st : IoState) (h : st.wifi_rx_buffer.head < RING_BUFFER_SIZE) :
    (io_recv_byte st).2.wifi_rx_buffer.head < RING_BUFFER_SIZE := by
  simp only [io_recv_byte]
  by_cases hne : (st.wifi_rx_buffer.head != st.wifi_rx_buffer.tail) = true
  · simp only [hne, if_true]
    by_cases hw : (st.wifi_rx_buffer.head + 1) % 65536 ≥ RING_BUFFER_SIZE
    · simp only [hw, if_true]; decide
    · simp only [hw, if_false]; omega
  · simp only [hne, if_false, Bool.false_eq_true]
    exact h

/-- Along any run of receive events and reads `head` stays inside the storage. -/
theorem io_run_head_lt (es : List IoEvent) :
    ∀ st : IoState, st.wifi_rx_buffer.head < RING_BUFFER_SIZE →
    (io_run es st).2.wifi_rx_buffer.head < RING_BUFFER_SIZE := by
  induction es with
  | nil => intro st h; exact h
  | cons e es ih =>
    intro st h
    have hstep : (io_step st e).2.wifi_rx_buffer.head < RING_BUFFER_SIZE := by
      cases e with
      | rx_event size =>
        simp only [io_step]
        rw [(HAL_UARTEx_RxEventCallback_head true size st).1]
        exact h
      | recv =>
        have h1 : (esp8266_io_recv 1 st).2 = (io_recv_byte st).2 := by
          simp only [esp8266_io_recv]
          rcases hb : io_recv_byte st with ⟨_ | c, st1⟩ <;> rfl
        simp only [io_step]
        split <;> (simp only; rw [h1]; exact io_recv_byte_head_lt st h)
    rw [io_run]
    rcases hs : io_step st e with ⟨_ | p, st1⟩
    · rw [hs] at hstep; exact ih st1 hstep
    · rw [hs] at hstep; exact ih st1 hstep

/-! ## Lemmas on the token-matching loops and on what `recv_data` stores -/

/-- The success token shows at byte `k`, within the capacity, and neither token has
shown before: the loop stops there with `ESP8266_OK`. -/
theorem send_at_loop_token_at (Token : List Nat) (resp : List Nat) :
    ∀ (w : List Nat) (k : Nat), 1 ≤ k → k ≤ resp.length → w.length + k < MAX_BUFFER_SIZE →
    strstr_found (w ++ resp.take k) Token = true →
    (∀ j, 1 ≤ j → j < k → strstr_found (w ++ resp.take j) Token = false ∧
      strstr_found (w ++ resp.take j) AT_ERROR_STRING = false) →
    send_at_loop Token (padded w) w.length resp =
      ⟨ESP8266_OK, padded (w ++ resp.take k), w.length + k, resp.drop k⟩ := by
  induction resp with
  | nil => intro w k h1 hk; simp at hk; omega
  | cons c rest ih =>
    intro w k h1 hk hlen hT hq
    simp only [List.length_cons] at hk
    rw [send_at_loop_step Token w c rest (by omega)]
    obtain ⟨k', rfl⟩ : ∃ k', k = k' + 1 := ⟨k - 1, by omega⟩
    rcases Nat.eq_zero_or_pos k' with h0 | hpos
    · subst h0
      have hT' : strstr_found (w ++ [c]) Token = true := by simpa using hT
      simp [hT']
    · have h1' := hq 1 (by omega) (by omega)
      have hT1 : strstr_found (w ++ [c]) Token = false := by simpa using h1'.1
      have hE1 : strstr_found (w ++ [c]) AT_ERROR_STRING = false := by simpa using h1'.2
      simp only [hT1, hE1, if_false, Bool.false_eq_true]
      have := ih (w ++ [c]) k' (by omega) (by omega) (by simp; omega)
        (by simpa using hT)
        (fun j hj1 hj2 => by simpa using hq (j + 1) (by omega) (by omega))
      have hl : (w ++ [c]).length = w.length + 1 := by simp
      rw [hl] at this
      rw [this]
      simp
      omega

/-- A run of `send_at_loop` that returns `ESP8266_OK` stopped at the first byte at
which the accumulator showed the token. -/
theorem send_at_loop_ok_inv (Token : List Nat) (resp : List Nat) :
    ∀ w : List Nat, w.length < MAX_BUFFER_SIZE →
    (send_at_loop Token (padded w) w.length resp).status = ESP8266_OK →
    ∃ m, 1 ≤ m ∧ m ≤ resp.length ∧ w.length + m < MAX_BUFFER_SIZE ∧
      send_at_loop Token (padded w) w.length resp =
        ⟨ESP8266_OK, padded (w ++ resp.take m), w.length + m, resp.drop m⟩ ∧
      strstr_found (w ++ resp.take m) Token = true ∧
      (∀ j, 1 ≤ j → j < m → strstr_found (w ++ resp.take j) Token = false) := by
  induction resp with
  | nil => intro w _ h; simp [send_at_loop] at h
  | cons c rest ih =>
    intro w hw hok
    by_cases hfull : w.length + 1 = MAX_BUFFER_SIZE
    · rw [send_at_loop_full Token w c rest hfull] at hok
      simp at hok
    · have hlt : w.length + 1 < MAX_BUFFER_SIZE := by omega
      rw [send_at_loop_step Token w c rest hlt] at hok ⊢
      by_cases hT : strstr_found (w ++ [c]) Token = true
      · refine ⟨1, le_refl _, by simp, hlt, by simp [hT], by simpa using hT, ?_⟩
        intro j h1 h2; omega
      · by_cases hE : strstr_found (w ++ [c]) AT_ERROR_STRING = true
        · simp [hT, hE] at hok
        · simp only [hT, hE, if_false, Bool.false_eq_true] at hok ⊢
          have hlen : (w ++ [c]).length = w.length + 1 := by simp
          rw [← hlen] at hok ⊢
          obtain ⟨m, hm1, hm2, hm3, heq, hfound, hmin⟩ := ih (w ++ [c]) (by simpa using hlt) hok
          refine ⟨m + 1, by omega, by simpa using hm2, by simp at hm3; omega, ?_,
            by simpa using hfound, ?_⟩
          · rw [heq]; simp; omega
          · intro j hj1 hj2
            rcases Nat.lt_or_ge j 2 with h | h
            · have : j = 1 := by omega
              subst this
              simpa using hT
            · obtain ⟨j', rfl⟩ : ∃ j', j = j' + 1 := ⟨j - 1, by omega⟩
              simpa using hmin j' (by omega) (by omega)

theorem filled_set (n : Nat) (w tail : List Nat) (c : Nat) (h : w.length < n) :
    (filled n w tail).set w.length c = filled n (w ++ [c]) tail := by
  unfold filled
  obtain ⟨m, hm⟩ : ∃ m, n - w.length = m + 1 := ⟨n - w.length - 1, by omega⟩
  have hm2 : n - (w ++ [c]).length = m := by simp; omega
  rw [hm, hm2, List.append_assoc, List.set_append_right _ _ (le_refl _)]
  simp [List.replicate_succ]

theorem filled_getElem (n : Nat) (w tail : List Nat) (h : w.length < n) :
    (filled n w tail)[w.length]? = some 0 := by
  unfold filled
  obtain ⟨m, hm⟩ : ∃ m, n - w.length = m + 1 := ⟨n - w.length - 1, by omega⟩
  rw [hm, List.append_assoc, List.getElem?_append_right (le_refl _)]
  simp [List.replicate_succ]

theorem memset_eq_filled (a : List Nat) (n : Nat) : memset a 0 n = filled n [] (a.drop n) := by
  simp [memset, filled]

theorem padded_eq_filled (w : List Nat) : padded w = filled MAX_BUFFER_SIZE w [] := by
  simp [padded, filled]

/-- With `maxBufferLength = MAX_BUFFER_SIZE` the loop of `catch_incoming_message` is
the loop of `send_at_cmd`. -/
theorem catch_loop_eq_send_at_loop (token : List Nat) (resp : List Nat) :
    ∀ (buf : List Nat) (idx : Nat),
    (⟨(catch_loop token MAX_BUFFER_SIZE buf idx resp).status,
      (catch_loop token MAX_BUFFER_SIZE buf idx resp).messageBuffer,
      (catch_loop token MAX_BUFFER_SIZE buf idx resp).idx,
      (catch_loop token MAX_BUFFER_SIZE buf idx resp).rest⟩ : AtResult) =
      send_at_loop token buf idx resp := by
  induction resp with
  | nil => intro buf idx; rfl
  | cons c rest ih =>
    intro buf idx
    rw [catch_loop, send_at_loop]
    by_cases h1 : (idx + 1 == MAX_BUFFER_SIZE) = true
    · simp [h1]
    · by_cases h2 : strstr_found (buf.set idx c) token = true
      · simp [h1, h2]
      · by_cases h3 : strstr_found (buf.set idx c) AT_ERROR_STRING = true
        · simp [h1, h2, h3]
        · have := ih (buf.set idx c) (idx + 1)
          simpa [h1, h2, h3] using this

theorem catch_loop_probes (token : List Nat) (resp : List Nat) :
    ∀ (buf : List Nat) (idx : Nat),
    (catch_loop token MAX_BUFFER_SIZE buf idx resp).probes = send_at_probes token buf idx resp := by
  induction resp with
  | nil => intro buf idx; rfl
  | cons c rest ih =>
    intro buf idx
    rw [catch_loop, send_at_probes]
    by_cases h1 : (idx + 1 == MAX_BUFFER_SIZE) = true
    · simp [h1]
    · by_cases h2 : strstr_found (buf.set idx c) token = true
      · simp [h1, h2]
      · by_cases h3 : strstr_found (buf.set idx c) AT_ERROR_STRING = true
        · simp [h1, h2, h3]
        · have := ih (buf.set idx c) (idx + 1)
          simpa [h1, h2, h3] using this

/-- The loop returns `ESP8266_OK` only from the branch in which `strstr` has found the
token in the buffer it leaves. -/
theorem catch_loop_ok_found (token : List Nat) (n : Nat) (resp : List Nat) :
    ∀ (buf : List Nat) (idx : Nat),
    (catch_loop token n buf idx resp).status = ESP8266_OK →
    strstr_found (catch_loop token n buf idx resp).messageBuffer token = true := by
  induction resp with
  | nil => intro buf idx h; simp [catch_loop] at h
  | cons c rest ih =>
    intro buf idx
    rw [catch_loop]
    by_cases h1 : (idx + 1 == n) = true
    · simp [h1]
    · by_cases h2 : strstr_found (buf.set idx c) token = true
      · simp [h1, h2]
      · by_cases h3 : strstr_found (buf.set idx c) AT_ERROR_STRING = true
        · simp [h1, h2, h3]
        · have := ih (buf.set idx c) (idx + 1)
          simpa [h1, h2, h3] using this

/-- The stores and searches of the loop on a buffer whose first `n` bytes hold the
bytes received so far followed by zeros: every store is at an index below `n`, every
search runs on a buffer with a NUL at `idx < n`, and the loop consumes one byte per
iteration, at most `n - idx` of them. -/
theorem catch_loop_bounds (token : List Nat) (n : Nat) (tail : List Nat) (resp : List Nat) :
    ∀ w : List Nat, w.length < n →
    (∀ p ∈ (catch_loop token n (filled n w tail) w.length resp).probes,
      p.store < n ∧ ∀ b i, p.search = some (b, i) → i < n ∧ b[i]? = some 0) ∧
    (catch_loop token n (filled n w tail) w.length resp).idx =
      w.length + (catch_loop token n (filled n w tail) w.length resp).probes.length ∧
    (catch_loop token n (filled n w tail) w.length resp).idx ≤ n ∧
    (catch_loop token n (filled n w tail) w.length resp).probes.length +
      (catch_loop token n (filled n w tail) w.length resp).rest.length = resp.length ∧
    (catch_loop token n (filled n w tail) w.length resp).messageBuffer =
      filled n (w ++ resp.take
        (catch_loop token n (filled n w tail) w.length resp).probes.length) tail := by
  induction resp with
  | nil =>
    intro w hw
    simp [catch_loop]
    omega
  | cons c rest ih =>
    intro w hw
    rw [catch_loop]
    simp only [filled_set n w tail c hw]
    by_cases h1 : (w.length + 1 == n) = true
    · have h1' : w.length + 1 = n := by simpa using h1
      simp only [if_pos h1]
      refine ⟨?_, by simp, by omega, by simp; omega, by simp⟩
      intro p hp
      simp only [List.mem_singleton] at hp
      subst hp
      exact ⟨hw, fun b i h => by simp at h⟩
    · have h1' : w.length + 1 < n := by
        have : ¬ (w.length + 1 = n) := by simpa using h1
        omega
      have hl : (w ++ [c]).length = w.length + 1 := by simp
      have hget : (filled n (w ++ [c]) tail)[w.length + 1]? = some 0 := by
        rw [← hl]; exact filled_getElem n (w ++ [c]) tail (by omega)
      have hprobe : ∀ p : Probe, p = ⟨w.length, some (filled n (w ++ [c]) tail, w.length + 1)⟩ →
          p.store < n ∧ ∀ b i, p.search = some (b, i) → i < n ∧ b[i]? = some 0 := by
        intro p hp
        subst hp
        refine ⟨hw, ?_⟩
        intro b i h
        simp only [Option.some.injEq, Prod.mk.injEq] at h
        obtain ⟨hb, hi⟩ := h
        subst hb hi
        exact ⟨h1', hget⟩
      by_cases h2 : strstr_found (filled n (w ++ [c]) tail) token = true
      · simp only [if_neg h1, if_pos h2]
        refine ⟨?_, by simp, by omega, by simp; omega, by simp⟩
        intro p hp
        exact hprobe p (by simpa using hp)
      · by_cases h3 : strstr_found (filled n (w ++ [c]) tail) AT_ERROR_STRING = true
        · simp only [if_neg h1, if_neg h2, if_pos h3]
          refine ⟨?_, by simp, by omega, by simp; omega, by simp⟩
          intro p hp
          exact hprobe p (by simpa using hp)
        · simp only [if_neg h1, if_neg h2, if_neg h3]
          obtain ⟨ih1, ih2, ih3, ih4, ih5⟩ := ih (w ++ [c]) (by omega)
          rw [hl] at ih1 ih2 ih4 ih5 ih3
          refine ⟨?_, ?_, ih3, ?_, ?_⟩
          · intro p hp
            simp only [List.mem_cons] at hp
            rcases hp with hp | hp
            · exact hprobe p hp
            · exact ih1 p hp
          · simp only [List.length_cons]
            rw [ih2]; omega
          · simp only [List.length_cons]
            omega
          · simp only [List.length_cons, List.take_succ_cons]
            rw [ih5]
            simp

theorem stored_ok_of_same (input0 : List Nat) (s s2 : RecvState) (h : stored_ok input0 s)
    (hB : s2.Buffer = s.Buffer) (hrl : s2.retLength = s.retLength)
    (hin : ∃ u, s.input = u ++ s2.input) : stored_ok input0 s2 := by
  obtain ⟨h1, pre, h2, h3⟩ := h
  obtain ⟨u, hu⟩ := hin
  refine ⟨by rw [hrl, hB]; exact h1, pre ++ u, ?_, ?_⟩
  · rw [h2, hu, List.append_assoc]
  · rw [hB]; exact h3.trans (List.sublist_append_left pre u)

theorem read_length_some (fuel : Nat) :
    ∀ s s' : RecvState, read_length fuel s = some s' →
    s'.Buffer = s.Buffer ∧ s'.retLength = s.retLength ∧ ∃ u, s.input = u ++ s'.input := by
  induction fuel with
  | zero => intro s s' h; simp [read_length] at h
  | succ fuel ih =>
    intro s s' h
    rw [read_length] at h
    rcases hin : s.input with _ | ⟨c, rest⟩
    · simp only [hin] at h
      by_cases hc : (s.RxChar != 58) = true
      · rw [if_pos hc] at h
        obtain ⟨h1, h2, u, h3⟩ := ih _ _ h
        simp only at h1 h2 h3
        exact ⟨h1, h2, u, h3⟩
      · rw [if_neg hc] at h
        simp only [Option.some.injEq] at h
        subst h
        exact ⟨rfl, rfl, [], rfl⟩
    · simp only [hin] at h
      by_cases hc : (c != 58) = true
      · rw [if_pos hc] at h
        obtain ⟨h1, h2, u, h3⟩ := ih _ _ h
        simp only at h1 h2 h3
        exact ⟨h1, h2, c :: u, by rw [h3]; simp⟩
      · rw [if_neg hc] at h
        simp only [Option.some.injEq] at h
        subst h
        exact ⟨rfl, rfl, [c], rfl⟩

theorem recv_header_some (fuel : Nat) (s s2 : RecvState) (h : recv_header fuel s = some s2) :
    s2.Buffer = s.Buffer ∧ s2.retLength = s.retLength ∧ ∃ u, s.input = u ++ s2.input := by
  unfold recv_header at h
  by_cases hc : (strstr_found s.rx_buffer AT_IPD_STRING && !s.newChunk) = true
  · rw [if_pos hc] at h
    rcases hr : read_length fuel { s with i := 0, LengthString := memset0 4 } with _ | s1
    · rw [hr] at h; simp at h
    · rw [hr] at h
      simp only [Option.some.injEq] at h
      obtain ⟨h1, h2, u, h3⟩ := read_length_some fuel _ _ hr
      simp only at h1 h2 h3
      subst h
      exact ⟨h1, h2, u, h3⟩
  · rw [if_neg hc] at h
    simp only [Option.some.injEq] at h
    subst h
    exact ⟨rfl, rfl, [], by simp⟩

theorem recv_store_stored_ok (input0 : List Nat) (s : RecvState) (c : Nat) (rest : List Nat)
    (hin : s.input = c :: rest) (h : stored_ok input0 s) :
    stored_ok input0 (recv_store s c rest) := by
  obtain ⟨h1, pre, h2, h3⟩ := h
  have hpre : input0 = (pre ++ [c]) ++ rest := by rw [h2, hin]; simp
  unfold recv_store
  by_cases hnc : s.newChunk = true
  · by_cases hlv : (s.LengthValue != 0) = true
    · simp only [hnc, hlv, if_true]
      refine ⟨?_, pre ++ [c], hpre, List.Sublist.append h3 (List.Sublist.refl _)⟩
      simp only [List.length_append, List.length_singleton]
      rw [h1]; omega
    · simp only [hnc, hlv, if_true, if_false]
      exact ⟨h1, pre ++ [c], hpre, h3.trans (List.sublist_append_left pre [c])⟩
  · simp only [hnc, if_false]
    exact ⟨h1, pre ++ [c], hpre, h3.trans (List.sublist_append_left pre [c])⟩

theorem recv_exit_eq (s : RecvState) :
    (recv_exit s).2 = s ∧ ((recv_exit s).1 = ESP8266_OK ∨ (recv_exit s).1 = ESP8266_ERROR) := by
  unfold recv_exit
  split
  · exact ⟨rfl, Or.inr rfl⟩
  · exact ⟨rfl, Or.inl rfl⟩

/-- Whenever the loop of `recv_data` returns, it returns `ESP8266_OK` or
`ESP8266_ERROR` in a state where `stored_ok` still holds. -/
theorem recv_loop_stored_ok (input0 : List Nat) (fuel : Nat) :
    ∀ (s s' : RecvState) (st : esp8266_status_t), recv_loop fuel s = some (st, s') →
    stored_ok input0 s →
    stored_ok input0 s' ∧ (st = ESP8266_OK ∨ st = ESP8266_ERROR) := by
  induction fuel with
  | zero => intro s s' st h; simp [recv_loop] at h
  | succ fuel ih =>
    intro s s' st h hs
    rw [recv_loop] at h
    rcases hin : s.input with _ | ⟨c, rest⟩
    · simp only [hin, Option.some.injEq] at h
      have he := recv_exit_eq s
      rw [h] at he
      simp only at he
      rw [he.1]
      exact ⟨hs, he.2⟩
    · simp only [hin] at h
      have hs1 := recv_store_stored_ok input0 s c rest hin hs
      by_cases hfull : ((recv_store s c rest).idx == MAX_BUFFER_SIZE) = true
      · rw [if_pos hfull] at h
        simp only [Option.some.injEq] at h
        have he := recv_exit_eq (recv_store s c rest)
        rw [h] at he
        simp only at he
        rw [he.1]
        exact ⟨hs1, he.2⟩
      · rw [if_neg hfull] at h
        rcases hh : recv_header fuel (recv_store s c rest) with _ | s2
        · rw [hh] at h; simp at h
        · rw [hh] at h
          simp only at h
          obtain ⟨hB, hrl, hu⟩ := recv_header_some fuel _ _ hh
          have hs2 := stored_ok_of_same input0 _ s2 hs1 hB hrl hu
          by_cases he : strstr_found s2.rx_buffer AT_ERROR_STRING = true
          · rw [if_pos he] at h
            simp only [Option.some.injEq, Prod.mk.injEq] at h
            obtain ⟨h1, h2⟩ := h
            subst h1 h2
            exact ⟨hs2, Or.inr rfl⟩
          · rw [if_neg he] at h
            by_cases ho : strstr_found s2.rx_buffer AT_IPD_OK_STRING = true
            · rw [if_pos ho] at h
              exact ih _ s' st h
                (stored_ok_of_same input0 s2 _ hs2 rfl rfl ⟨[], by simp⟩)
            · rw [if_neg ho] at h
              exact ih _ s' st h hs2

theorem stored_ok_recv_init (input : List Nat) : stored_ok input (recv_init input) :=
  ⟨rfl, [], by simp [recv_init], List.Sublist.refl _⟩

theorem recv_entry_eq_recv_init (retLength : Nat) (rx_buffer input : List Nat)
    (h : rx_buffer.length = MAX_BUFFER_SIZE) :
    recv_entry retLength rx_buffer input = recv_init input := by
  have : memset rx_buffer 0 MAX_BUFFER_SIZE = memset0 MAX_BUFFER_SIZE := by
    rw [memset, List.drop_of_length_le (by omega), List.append_nil]
    rfl
  simp [recv_entry, recv_init, this]

theorem filled_length (n : Nat) (w tail : List Nat) (h : w.length ≤ n) :
    (filled n w tail).length = n + tail.length := by
  simp only [filled, List.length_append, List.length_replicate]
  omega

/-! ## Statements on `send_at_cmd`, `recv_data` and the ring buffer -/

/-- C1. Round trip of the +IPD framing: for chunks of at most 999 bytes each that
contain neither `"ERROR\r\n"` nor `"OK\r\n\r\n"`, and a capacity `Length` (a
`uint32_t`) not below their total length, on the stream of their frames followed by
`"OK\r\n\r\n"` and then no data, `esp8266_recv_data` returns (any fuel above the
length of the stream is enough) `ESP8266_OK`, with `*retLength` the total length and
the output buffer holding the concatenation of the chunks; the whole stream is
consumed and `LengthString` is never overrun. -/
theorem esp8266_recv_data_round_trip (chunks : List (List Nat)) (Length fuel : Nat)
    (hlen : ∀ p ∈ chunks, p.length ≤ 999)
    (herr : ∀ p ∈ chunks, ¬ AT_ERROR_STRING <:+: p)
    (hok : ∀ p ∈ chunks, ¬ AT_IPD_OK_STRING <:+: p)
    (hcap : (chunks.map List.length).sum ≤ Length) (hL : Length < 4294967296)
    (hfuel : (ipd_stream chunks).length < fuel) :
    esp8266_recv_data fuel Length (ipd_stream chunks) =
      some ⟨ESP8266_OK, chunks.flatten, (chunks.map List.length).sum, [], false⟩ := by
  have h := recv_data_frames_marker_tail chunks [] fuel Length hlen herr hok (by omega)
    (by simpa using (by decide : ¬ AT_IPD_STRING <:+: AT_IPD_OK_STRING))
    (by simpa using (by decide : ¬ AT_ERROR_STRING <:+: AT_IPD_OK_STRING))
    (by decide) (by simpa using hfuel)
  simpa [esp8266_recv_data] using h

/-- C1, at the stream `"+IPD,5:hello+IPD,3:!!!OK\r\n\r\n"`: the result is `"hello!!!"`
with length 8 and `ESP8266_OK`. -/
theorem esp8266_recv_data_round_trip_witness :
    ipd_stream [[104, 101, 108, 108, 111], [33, 33, 33]] =
        [43, 73, 80, 68, 44, 53, 58, 104, 101, 108, 108, 111,
         43, 73, 80, 68, 44, 51, 58, 33, 33, 33, 79, 75, 13, 10, 13, 10] ∧
      esp8266_recv_data 29 8 (ipd_stream [[104, 101, 108, 108, 111], [33, 33, 33]]) =
        some ⟨ESP8266_OK, [104, 101, 108, 108, 111, 33, 33, 33], 8, [], false⟩ :=
  ⟨by decide,
   esp8266_recv_data_round_trip [[104, 101, 108, 108, 111], [33, 33, 33]] 8 29
     (by decide) (by decide) (by decide) (by decide) (by decide) (by decide)⟩

/-- C2. The frame `"+IPD,8:"` with the payload `"ERROR\r\nX"`: the error-token check
takes effect with one payload byte outstanding; the call returns `ESP8266_ERROR`
after storing 7 of the 8 bytes and leaves `"X"` unread. -/
theorem recv_data_error_token_inside_payload :
    esp8266_recv_data 100 8 [43, 73, 80, 68, 44, 56, 58, 69, 82, 82, 79, 82, 13, 10, 88] =
      some ⟨ESP8266_ERROR, [69, 82, 82, 79, 82, 13, 10], 7, [88], false⟩ := by
  decide

/-- C3. The stream `"+IPD,5:hello"` received with `Length = 2`: five bytes are stored
and `*retLength = 5`, with `ESP8266_OK`. -/
theorem recv_data_stores_beyond_Length :
    esp8266_recv_data 100 2 [43, 73, 80, 68, 44, 53, 58, 104, 101, 108, 108, 111] =
      some ⟨ESP8266_OK, [104, 101, 108, 108, 111], 5, [], false⟩ := by
  decide

/-- C4. The header `"+IPD,10:"` followed by the six payload bytes `"OK\r\n\r\n"` and
then no data: the call returns `ESP8266_OK` with `*retLength = 6`. -/
theorem recv_data_truncated_frame_with_marker :
    esp8266_recv_data 100 10 [43, 73, 80, 68, 44, 49, 48, 58, 79, 75, 13, 10, 13, 10] =
      some ⟨ESP8266_OK, [79, 75, 13, 10, 13, 10], 6, [], false⟩ := by
  decide

/-- The example of a truncated frame given with C4: the header `"+IPD,10:"` with four
payload bytes `"abcd"` and then no data gives `ESP8266_ERROR`. -/
theorem recv_data_truncated_frame_example :
    esp8266_recv_data 100 10 [43, 73, 80, 68, 44, 49, 48, 58, 97, 98, 99, 100] =
      some ⟨ESP8266_ERROR, [97, 98, 99, 100], 4, [], false⟩ := by
  decide

/-- C5, as stated, fails: on `"+IPD,1:aOK\r\n\r\nX"` the byte `X` that follows the
marker is consumed (nothing is left unread) before the call returns `ESP8266_OK`
with the payload `"a"`. -/
theorem recv_data_reads_past_marker :
    esp8266_recv_data 100 1 [43, 73, 80, 68, 44, 49, 58, 97, 79, 75, 13, 10, 13, 10, 88] =
      some ⟨ESP8266_OK, [97], 1, [], false⟩ := by
  decide

/-- C5, amended. The marker does not end the call. On the frames of chunks (as in
C1), then `"OK\r\n\r\n"`, then bytes `t` such that the marker followed by `t`
contains neither `"+IPD,"` nor `"ERROR\r\n"` and fits in the accumulator, then no
data: the call reads the whole stream, `t` included, and returns `ESP8266_OK` with
exactly the payload collected up to the marker; no byte of `t` is added to the
output. -/
theorem esp8266_recv_data_marker_then_tail (chunks : List (List Nat)) (t : List Nat)
    (Length fuel : Nat) (hlen : ∀ p ∈ chunks, p.length ≤ 999)
    (herr : ∀ p ∈ chunks, ¬ AT_ERROR_STRING <:+: p)
    (hok : ∀ p ∈ chunks, ¬ AT_IPD_OK_STRING <:+: p)
    (hsum : (chunks.map List.length).sum < 4294967296)
    (hipdt : ¬ AT_IPD_STRING <:+: AT_IPD_OK_STRING ++ t)
    (herrt : ¬ AT_ERROR_STRING <:+: AT_IPD_OK_STRING ++ t)
    (hlent : t.length + 6 < MAX_BUFFER_SIZE)
    (hfuel : (ipd_stream chunks ++ t).length < fuel) :
    esp8266_recv_data fuel Length (ipd_stream chunks ++ t) =
      some ⟨ESP8266_OK, chunks.flatten, (chunks.map List.length).sum, [], false⟩ :=
  recv_data_frames_marker_tail chunks t fuel Length hlen herr hok hsum hipdt herrt hlent hfuel

/-- C5 amended, at the stream `"+IPD,1:aOK\r\n\r\nX"`. -/
theorem esp8266_recv_data_marker_then_tail_witness :
    ipd_stream [[97]] ++ [88] =
        [43, 73, 80, 68, 44, 49, 58, 97, 79, 75, 13, 10, 13, 10, 88] ∧
      esp8266_recv_data 16 1 (ipd_stream [[97]] ++ [88]) =
        some ⟨ESP8266_OK, [97], 1, [], false⟩ :=
  ⟨by decide,
   esp8266_recv_data_marker_then_tail [[97]] [88] 1 16 (by decide) (by decide) (by decide)
     (by decide) (by decide) (by decide) (by decide) (by decide)⟩

/-- C6, as stated, fails in two ways. In `"\0OK\r\n"` and in 8188 bytes `'A'`
followed by `"OK\r\n"` the success token `"OK\r\n"` occurs and `"ERROR\r\n"` does
not, yet `send_at_cmd` returns `ESP8266_ERROR`: a NUL byte hides what follows it
from `strstr`, and the capacity test precedes the token test. -/
theorem send_at_cmd_token_missed :
    (AT_OK_STRING <:+: [0, 79, 75, 13, 10] ∧ ¬ AT_ERROR_STRING <:+: [0, 79, 75, 13, 10] ∧
      (send_at_cmd [] true AT_OK_STRING [0, 79, 75, 13, 10]).status = ESP8266_ERROR) ∧
    (AT_OK_STRING <:+: List.replicate 8188 65 ++ AT_OK_STRING ∧
      ¬ AT_ERROR_STRING <:+: List.replicate 8188 65 ++ AT_OK_STRING ∧
      (send_at_cmd [] true AT_OK_STRING (List.replicate 8188 65 ++ AT_OK_STRING)).status
        = ESP8266_ERROR) := by
  refine ⟨⟨by decide, by decide, by decide⟩, ⟨(List.suffix_append _ _).isInfix, ?_, ?_⟩⟩
  · apply not_infix_of_not_mem 69 _ _ (by decide)
    intro hm
    rcases mem_replicate_append_elim _ _ _ _ hm with h | h
    · exact absurd h (by decide)
    · exact absurd h (by decide)
  · rw [send_at_cmd_eq_loop, send_at_loop_token_at_capacity]

/-- C6, amended. When an occurrence of the success token is completed at response
byte `k`, with `1 ≤ k ≤ 8191` and no NUL among the first `k` bytes, and no
occurrence of `"ERROR\r\n"` is completed before byte `k`, `send_at_cmd` (the write
succeeding) returns `ESP8266_OK`. -/
theorem send_at_cmd_success (rx_buffer Token response : List Nat) (k : Nat)
    (hk1 : 1 ≤ k) (hk : k ≤ response.length) (hcap : k < MAX_BUFFER_SIZE)
    (hnul : ∀ c ∈ response.take k, c ≠ 0) (hT : cstr Token <:+: response.take k)
    (hE : ∀ j, j < k → ¬ AT_ERROR_STRING <:+: response.take j) :
    (send_at_cmd rx_buffer true Token response).status = ESP8266_OK := by
  have h := send_at_loop_ok Token response [] k hk1 hk (by simpa using hcap)
    (by
      rw [List.nil_append, strstr_found_iff, cstr_of_no_zero _ hnul]
      exact hT)
    (fun j _ hj => by
      have := strstr_found_take_false (response.take j) AT_ERROR_STRING j
        (by rw [cstr_AT_ERROR_STRING]; exact hE j hj)
      simpa [List.take_take] using this)
  rw [send_at_cmd_eq_loop]
  exact h

/-- C6 amended, at the response `"abcOK\r\nrest"` with the token `"OK\r\n"`. -/
theorem send_at_cmd_success_witness :
    (send_at_cmd [] true AT_OK_STRING
      [97, 98, 99, 79, 75, 13, 10, 114, 101, 115, 116]).status = ESP8266_OK :=
  send_at_cmd_success [] AT_OK_STRING [97, 98, 99, 79, 75, 13, 10, 114, 101, 115, 116] 7
    (by decide) (by decide) (by decide) (by decide) (by decide) (by decide)

/-- C7. Overflow of the response accumulator: on a response of at least
`MAX_BUFFER_SIZE` bytes whose first `MAX_BUFFER_SIZE` bytes contain neither the
success token nor `"ERROR\r\n"`, `send_at_cmd` returns `ESP8266_ERROR` with
`idx = MAX_BUFFER_SIZE`: exactly that many bytes are consumed, they fill
`rx_buffer` (indices `0 .. MAX_BUFFER_SIZE - 1`), and the rest is left unread. -/
theorem send_at_cmd_overflow (rx_buffer Token response : List Nat)
    (hlen : MAX_BUFFER_SIZE ≤ response.length)
    (hT : ¬ cstr Token <:+: response.take MAX_BUFFER_SIZE)
    (hE : ¬ AT_ERROR_STRING <:+: response.take MAX_BUFFER_SIZE) :
    send_at_cmd rx_buffer true Token response =
      ⟨ESP8266_ERROR, response.take MAX_BUFFER_SIZE, MAX_BUFFER_SIZE,
        response.drop MAX_BUFFER_SIZE⟩ := by
  have h := send_at_loop_overflow Token response hlen
    (fun j hj => by
      have := strstr_found_take_false (response.take MAX_BUFFER_SIZE) Token j hT
      simpa [List.take_take, Nat.min_eq_left (Nat.le_of_lt hj)] using this)
    (fun j hj => by
      have := strstr_found_take_false (response.take MAX_BUFFER_SIZE) AT_ERROR_STRING j
        (by rw [cstr_AT_ERROR_STRING]; exact hE)
      simpa [List.take_take, Nat.min_eq_left (Nat.le_of_lt hj)] using this)
  rw [send_at_cmd_eq_loop]
  exact h

/-- C7, at a response of 8192 bytes `'A'` with the token `"OK\r\n"`. -/
theorem send_at_cmd_overflow_witness :
    send_at_cmd [] true AT_OK_STRING (List.replicate 8192 65) =
      ⟨ESP8266_ERROR, (List.replicate 8192 65).take MAX_BUFFER_SIZE, MAX_BUFFER_SIZE,
        (List.replicate 8192 65).drop MAX_BUFFER_SIZE⟩ :=
  send_at_cmd_overflow [] AT_OK_STRING (List.replicate 8192 65)
    (by rw [List.length_replicate]; decide)
    (not_infix_of_not_mem 79 _ _ (by decide)
      (fun hm => absurd (List.eq_of_mem_replicate (List.mem_of_mem_take hm)) (by decide)))
    (not_infix_of_not_mem 69 _ _ (by decide)
      (fun hm => absurd (List.eq_of_mem_replicate (List.mem_of_mem_take hm)) (by decide)))

/-- C8. After `esp8266_io_init`, one receive event reporting `RING_BUFFER_SIZE` bytes
and then 8193 single-byte reads: every read returns a byte, 8193 for 8192 reported,
and the last one is taken from position 0, which the first read had already
consumed. `head` wraps to 0 at the end of the storage while `tail` stays at 8192. -/
theorem io_recv_rereads_after_full_buffer (data : List Nat) :
    (io_run (IoEvent.rx_event 8192 :: List.replicate 8193 IoEvent.recv) (io_start data)).1 =
      List.range 8192 ++ [0] := by
  rw [io_run_full]

/-- C9. On the stream `"+IPD,1"`, which ends inside a frame header, the call has
not returned whatever the number of loop iterations allowed: the length loop spins
on the last byte read. -/
theorem esp8266_recv_data_hangs_in_header (fuel Length : Nat) :
    esp8266_recv_data fuel Length [43, 73, 80, 68, 44, 49] = none := by
  simp [esp8266_recv_data, recv_data, recv_loop_truncated_header]

/-- C10, as stated, fails: a write failure, a timeout with no byte, the error token
and an overflow of the accumulator all give the one status `ESP8266_ERROR`. -/
theorem send_at_cmd_failures_share_status :
    (send_at_cmd [] false AT_OK_STRING AT_OK_STRING).status = ESP8266_ERROR ∧
    (send_at_cmd [] true AT_OK_STRING []).status = ESP8266_ERROR ∧
    (send_at_cmd [] true AT_OK_STRING AT_ERROR_STRING).status = ESP8266_ERROR ∧
    (send_at_cmd [] true AT_OK_STRING (List.replicate 8192 65)).status = ESP8266_ERROR := by
  refine ⟨by decide, by decide, by decide, ?_⟩
  rw [send_at_cmd_eq_loop]
  exact send_at_loop_replicate_overflow

/-- C10, amended. The status of `send_at_cmd` tells success from failure and nothing
more: it is `ESP8266_OK` or `ESP8266_ERROR`, and each of the four failure causes
gives `ESP8266_ERROR`: a failed write; a response that ends (time-out) below the
capacity without either token; the error token completed at byte `k <= 8191` with no
success token up to there; the accumulator filled without either token. -/
theorem send_at_cmd_failure_status (rx_buffer Token response : List Nat) (sendOk : Bool) :
    ((send_at_cmd rx_buffer sendOk Token response).status = ESP8266_OK ∨
      (send_at_cmd rx_buffer sendOk Token response).status = ESP8266_ERROR) ∧
    (send_at_cmd rx_buffer false Token response).status = ESP8266_ERROR ∧
    (response.length < MAX_BUFFER_SIZE → ¬ cstr Token <:+: response →
      ¬ AT_ERROR_STRING <:+: response →
      (send_at_cmd rx_buffer true Token response).status = ESP8266_ERROR) ∧
    (∀ k, 1 ≤ k → k ≤ response.length → k < MAX_BUFFER_SIZE →
      AT_ERROR_STRING <:+: cstr (response.take k) → ¬ cstr Token <:+: response.take k →
      (send_at_cmd rx_buffer true Token response).status = ESP8266_ERROR) ∧
    (MAX_BUFFER_SIZE ≤ response.length → ¬ cstr Token <:+: response.take MAX_BUFFER_SIZE →
      ¬ AT_ERROR_STRING <:+: response.take MAX_BUFFER_SIZE →
      (send_at_cmd rx_buffer true Token response).status = ESP8266_ERROR) := by
  refine ⟨?_, rfl, ?_, ?_, ?_⟩
  · cases sendOk
    · right; rfl
    · rw [send_at_cmd_eq_loop]; exact send_at_loop_status _ _ _ _
  · intro hlen hT hE
    have h := send_at_loop_quiet Token response [] [] (by simpa using hlen)
      (fun j _ => by simpa using strstr_found_take_false response Token j hT)
      (fun j _ => by
        simpa using strstr_found_take_false response AT_ERROR_STRING j
          (by rw [cstr_AT_ERROR_STRING]; exact hE))
    rw [send_at_cmd_eq_loop]
    rw [List.append_nil] at h
    have h' : send_at_loop Token (padded []) 0 response =
        send_at_loop Token (padded ([] ++ response)) ([].length + response.length) [] := h
    rw [h']
    rfl
  · intro k hk1 hk hcap hE hT
    rw [send_at_cmd_eq_loop]
    exact send_at_loop_error Token response [] k hk1 hk (by simpa using hcap)
      (by
        rw [List.nil_append, strstr_found_iff, cstr_AT_ERROR_STRING]
        exact hE)
      (fun j _ hj => by
        have := strstr_found_take_false (response.take k) Token j hT
        simpa [List.take_take, Nat.min_eq_left hj] using this)
  · intro hlen hT hE
    have h := send_at_loop_overflow Token response hlen
      (fun j hj => by
        have := strstr_found_take_false (response.take MAX_BUFFER_SIZE) Token j hT
        simpa [List.take_take, Nat.min_eq_left (Nat.le_of_lt hj)] using this)
      (fun j hj => by
        have := strstr_found_take_false (response.take MAX_BUFFER_SIZE) AT_ERROR_STRING j
          (by rw [cstr_AT_ERROR_STRING]; exact hE)
        simpa [List.take_take, Nat.min_eq_left (Nat.le_of_lt hj)] using this)
    rw [send_at_cmd_eq_loop, h]

/-- C10 amended, at the token `"OK\r\n"`: the response `"ERROR\r\n"` and the empty
response both give `ESP8266_ERROR`. -/
theorem send_at_cmd_failure_status_witness :
    (send_at_cmd [] true AT_OK_STRING AT_ERROR_STRING).status = ESP8266_ERROR ∧
    (send_at_cmd [] true AT_OK_STRING []).status = ESP8266_ERROR :=
  ⟨(send_at_cmd_failure_status [] AT_OK_STRING AT_ERROR_STRING true).2.2.2.1 7
      (by decide) (by decide) (by decide) (by decide) (by decide),
   (send_at_cmd_failure_status [] AT_OK_STRING [] true).2.2.1
      (by decide) (by decide) (by decide)⟩

/-- C11, as stated, fails: in `"\0ERROR\r\nX"` an occurrence of `"ERROR\r\n"` is
completed at byte 8 and the token `"OK\r\n"` occurs nowhere, yet `send_at_cmd`
consumes all 9 bytes: the NUL hides the error token from `strstr`, and the call
ends on the time-out that follows the last byte. -/
theorem send_at_cmd_error_token_behind_nul :
    AT_ERROR_STRING <:+: [0, 69, 82, 82, 79, 82, 13, 10, 88].take 8 ∧
    ¬ AT_OK_STRING <:+: [0, 69, 82, 82, 79, 82, 13, 10, 88] ∧
    (send_at_cmd [] true AT_OK_STRING [0, 69, 82, 82, 79, 82, 13, 10, 88]).idx = 9 ∧
    (send_at_cmd [] true AT_OK_STRING [0, 69, 82, 82, 79, 82, 13, 10, 88]).rest = [] := by
  refine ⟨by decide, by decide, by decide, by decide⟩

/-- C11, amended. When the first occurrence of `"ERROR\r\n"` in the response is
completed at byte `k <= 8191`, there is no NUL among the first `k` bytes and the
first `k` bytes do not contain the success token, `send_at_cmd` returns
`ESP8266_ERROR` having consumed exactly `k` bytes: `idx = k`, the accumulator holds
those bytes and the rest of the response is left unread. -/
theorem send_at_cmd_error_token (rx_buffer Token response : List Nat) (k : Nat)
    (hk : k < MAX_BUFFER_SIZE) (hnul : ∀ c ∈ response.take k, c ≠ 0)
    (hE : AT_ERROR_STRING <:+: response.take k)
    (hfirst : ∀ j, j < k → ¬ AT_ERROR_STRING <:+: response.take j)
    (hT : ¬ cstr Token <:+: response.take k) :
    send_at_cmd rx_buffer true Token response =
      ⟨ESP8266_ERROR, padded (response.take k), k, response.drop k⟩ := by
  rw [send_at_cmd_eq_loop]
  exact send_at_loop_error_at Token response k hk hnul hE hfirst hT

/-- C11 amended, at the response `"abERROR\r\nxyz"` with the token `"OK\r\n"`: nine
bytes are consumed and `"xyz"` is left. -/
theorem send_at_cmd_error_token_witness :
    send_at_cmd [] true AT_OK_STRING [97, 98, 69, 82, 82, 79, 82, 13, 10, 120, 121, 122] =
      ⟨ESP8266_ERROR, padded ([97, 98, 69, 82, 82, 79, 82, 13, 10, 120, 121, 122].take 9), 9,
        [97, 98, 69, 82, 82, 79, 82, 13, 10, 120, 121, 122].drop 9⟩ :=
  send_at_cmd_error_token [] AT_OK_STRING [97, 98, 69, 82, 82, 79, 82, 13, 10, 120, 121, 122] 9
    (by decide) (by decide) (by decide) (by decide) (by decide)

/-- C12, as stated, fails: with an SSID of 240 bytes `'a'` and an empty password the
command and its terminator take 257 bytes, `sprintf` stores outside `at_cmd`, and
the call does not fail for that: it returns the status of the transaction, here
`ESP8266_OK` on the reply `"OK\r\n"`. -/
theorem esp8266_joint_ap_overruns_at_cmd :
    (format_CWJAP (List.replicate 240 97) [] ++ [0]).length = 257 ∧
    (esp8266_joint_ap (List.replicate 240 97) [] [] true AT_OK_STRING).overrun = true ∧
    (esp8266_joint_ap (List.replicate 240 97) [] [] true AT_OK_STRING).status = ESP8266_OK := by
  have hc : cstr (List.replicate 240 97) = List.replicate 240 97 :=
    cstr_of_no_zero _ (fun c hc => by rw [List.eq_of_mem_replicate hc]; decide)
  have hl : (format_CWJAP (List.replicate 240 97) [] ++ [0]).length = 257 := by
    rw [List.length_append, format_CWJAP_length, hc, List.length_replicate]
    rfl
  refine ⟨hl, ?_, by decide⟩
  simp only [esp8266_joint_ap, sprintf_at_cmd, hl]
  decide

/-- C12, amended. `esp8266_joint_ap` makes no length check: its status is that of the
transaction. For an SSID and a password (C strings) whose lengths add up to at
most 239, the command takes `16 + strlen(ssid) + strlen(password)` bytes, it and its
terminator lie inside the 256 bytes of `at_cmd`, nothing is stored outside, and the
bytes handed to `esp8266_io_send` are the whole command. -/
theorem esp8266_joint_ap_command_fits (Ssid Password rx_buffer response : List Nat)
    (sendOk : Bool) (h : (cstr Ssid).length + (cstr Password).length ≤ 239) :
    (esp8266_joint_ap Ssid Password rx_buffer sendOk response).overrun = false ∧
    (esp8266_joint_ap Ssid Password rx_buffer sendOk response).at_cmd =
      format_CWJAP Ssid Password ++
        List.replicate (MAX_AT_CMD_SIZE - (format_CWJAP Ssid Password).length) 0 ∧
    (esp8266_joint_ap Ssid Password rx_buffer sendOk response).Length =
      16 + (cstr Ssid).length + (cstr Password).length ∧
    (esp8266_joint_ap Ssid Password rx_buffer sendOk response).Length < MAX_AT_CMD_SIZE ∧
    (esp8266_joint_ap Ssid Password rx_buffer sendOk response).sent =
      format_CWJAP Ssid Password ∧
    (esp8266_joint_ap Ssid Password rx_buffer sendOk response).status =
      (send_at_cmd rx_buffer sendOk AT_OK_STRING response).status := by
  have hl := format_CWJAP_length Ssid Password
  have hM : MAX_AT_CMD_SIZE = 256 := rfl
  have hfit : (format_CWJAP Ssid Password).length < MAX_AT_CMD_SIZE := by omega
  have hs := sprintf_at_cmd_fits (format_CWJAP Ssid Password) hfit
  have hc : cstr (format_CWJAP Ssid Password ++
      List.replicate (MAX_AT_CMD_SIZE - (format_CWJAP Ssid Password).length) 0)
      = format_CWJAP Ssid Password := by
    rw [cstr_append_zeros' _ _ (by omega), cstr_of_no_zero _ (format_CWJAP_no_zero _ _)]
  simp only [esp8266_joint_ap, hs, hc, List.take_left', and_true, true_and]
  exact ⟨hl, by omega⟩

/-- C12 amended, at the SSID `"myssid"` and the password `"pw"`: the 24 bytes of
`AT+CWJAP="myssid","pw"` and CR LF are sent. -/
theorem esp8266_joint_ap_command_fits_witness :
    (esp8266_joint_ap [109, 121, 115, 115, 105, 100] [112, 119] [] true AT_OK_STRING).overrun
      = false ∧
    (esp8266_joint_ap [109, 121, 115, 115, 105, 100] [112, 119] [] true AT_OK_STRING).sent =
      [65, 84, 43, 67, 87, 74, 65, 80, 61, 34, 109, 121, 115, 115, 105, 100, 34, 44, 34,
       112, 119, 34, 13, 10] :=
  ⟨(esp8266_joint_ap_command_fits [109, 121, 115, 115, 105, 100] [112, 119] [] AT_OK_STRING true
      (by decide)).1,
   (esp8266_joint_ap_command_fits [109, 121, 115, 115, 105, 100] [112, 119] [] AT_OK_STRING true
      (by decide)).2.2.2.2.1⟩

/-- C13. The single-byte read, in a state whose `head` indexes the storage (as it does
in every state a run of events reaches, `io_run_head_lt`): when `head != tail` the
call stores `data[head]`, returns 1 and sets `head` to `(head + 1) mod
RING_BUFFER_SIZE`, `data`, `tail` and `tail_pos` unchanged; when `head == tail` it
stores nothing, returns 0 and leaves the state as it is. For every requested length
`L` and every state the number of bytes stored, which is the value returned, is at
most `L`. -/
theorem esp8266_io_recv_single_byte (st : IoState)
    (hhead : st.wifi_rx_buffer.head < RING_BUFFER_SIZE) :
    (st.wifi_rx_buffer.head ≠ st.wifi_rx_buffer.tail →
      esp8266_io_recv 1 st =
        ([st.wifi_rx_buffer.data.getD st.wifi_rx_buffer.head 0],
         { st with wifi_rx_buffer :=
            { st.wifi_rx_buffer with
              head := (st.wifi_rx_buffer.head + 1) % RING_BUFFER_SIZE } })) ∧
    (st.wifi_rx_buffer.head = st.wifi_rx_buffer.tail → esp8266_io_recv 1 st = ([], st)) ∧
    (∀ (L : Nat) (st' : IoState), (esp8266_io_recv L st').1.length ≤ L) := by
  have hR : RING_BUFFER_SIZE = 8192 := rfl
  refine ⟨?_, ?_, esp8266_io_recv_length_le⟩
  · intro hne
    have h1 : (st.wifi_rx_buffer.head + 1) % 65536 = st.wifi_rx_buffer.head + 1 :=
      Nat.mod_eq_of_lt (by omega)
    by_cases hw : st.wifi_rx_buffer.head + 1 ≥ RING_BUFFER_SIZE
    · have h3 : (st.wifi_rx_buffer.head + 1) % RING_BUFFER_SIZE = 0 := by
        have h2 : st.wifi_rx_buffer.head + 1 = RING_BUFFER_SIZE := by omega
        rw [h2]; exact Nat.mod_self _
      simp [esp8266_io_recv, io_recv_byte, hne, h1, h3, hw]
    · have h2 : (st.wifi_rx_buffer.head + 1) % RING_BUFFER_SIZE = st.wifi_rx_buffer.head + 1 :=
        Nat.mod_eq_of_lt (by omega)
      simp [esp8266_io_recv, io_recv_byte, hne, h1, h2, hw]
  · intro heq
    simp [esp8266_io_recv, io_recv_byte, heq]

/-- C13, in the state with `data = "abc"`, `tail = 3`, `head = 1`: the read returns
`'b'` and moves `head` to 2. -/
theorem esp8266_io_recv_single_byte_witness :
    esp8266_io_recv 1 ⟨⟨[97, 98, 99], 3, 1⟩, 3⟩ = ([98], ⟨⟨[97, 98, 99], 3, 2⟩, 3⟩) :=
  (esp8266_io_recv_single_byte ⟨⟨[97, 98, 99], 3, 1⟩, 3⟩ (by decide)).1 (by decide)

/-- C14. `esp8266_io_init` leaves the `tail_pos` of the callback as it is: after a
receive event reporting 100 bytes, a second `esp8266_io_init` and a receive event
reporting 50 bytes, `tail_pos` is still 100, the event is dropped (`tail` stays 0)
and a read returns no byte, although 50 bytes were reported. -/
theorem esp8266_io_init_keeps_tail_pos (data : List Nat) :
    (esp8266_io_init true (io_run [IoEvent.rx_event 100] (io_start data)).2).2 =
      ⟨⟨data, 0, 0⟩, 100⟩ ∧
    HAL_UARTEx_RxEventCallback true 50
        (esp8266_io_init true (io_run [IoEvent.rx_event 100] (io_start data)).2).2 =
      ⟨⟨data, 0, 0⟩, 100⟩ ∧
    esp8266_io_recv 1 (HAL_UARTEx_RxEventCallback true 50
        (esp8266_io_init true (io_run [IoEvent.rx_event 100] (io_start data)).2).2) =
      ([], ⟨⟨data, 0, 0⟩, 100⟩) := by
  have h1 : (esp8266_io_init true (io_run [IoEvent.rx_event 100] (io_start data)).2).2 =
      ⟨⟨data, 0, 0⟩, 100⟩ := by
    simp [io_run, io_step, io_start, io_boot, esp8266_io_init, HAL_UARTEx_RxEventCallback]
  rw [h1]
  refine ⟨rfl, ?_, ?_⟩
  · simp [HAL_UARTEx_RxEventCallback]
  · simp [HAL_UARTEx_RxEventCallback, esp8266_io_recv, io_recv_byte]

/-- C15. A transaction returns on every transport, finite or not: whatever each call
of `esp8266_io_recv` delivers, `send_at_cmd` returns within `MAX_BUFFER_SIZE` loop
iterations, having consumed `idx <= MAX_BUFFER_SIZE` bytes, with `ESP8266_OK` or
`ESP8266_ERROR`; so does `esp8266_close_connection`; and on the transport of a
finite response the result is that of `send_at_cmd` on the list. -/
theorem send_at_cmd_on_returns (rx_buffer Token : List Nat) (sendOk : Bool)
    (recv : Nat → Option Nat) (channel_id : Nat) :
    (∃ r : AtOutcome,
      (∀ fuel, MAX_BUFFER_SIZE ≤ fuel →
        send_at_cmd_on fuel rx_buffer sendOk Token recv = some r) ∧
      r.idx ≤ MAX_BUFFER_SIZE ∧ (r.status = ESP8266_OK ∨ r.status = ESP8266_ERROR)) ∧
    (∃ s : esp8266_status_t,
      (∀ fuel, MAX_BUFFER_SIZE ≤ fuel →
        esp8266_close_connection fuel channel_id rx_buffer sendOk recv = some s) ∧
      (s = ESP8266_OK ∨ s = ESP8266_ERROR)) ∧
    (∀ (response : List Nat) (fuel : Nat), response.length < fuel →
      send_at_cmd_on fuel rx_buffer sendOk Token (transport_of response) =
        some ⟨(send_at_cmd rx_buffer sendOk Token response).status,
          (send_at_cmd rx_buffer sendOk Token response).rx_buffer,
          (send_at_cmd rx_buffer sendOk Token response).idx⟩) := by
  have main : ∀ Tok : List Nat, ∃ r : AtOutcome,
      (∀ fuel, MAX_BUFFER_SIZE ≤ fuel →
        send_at_cmd_on fuel rx_buffer sendOk Tok recv = some r) ∧
      r.idx ≤ MAX_BUFFER_SIZE ∧ (r.status = ESP8266_OK ∨ r.status = ESP8266_ERROR) := by
    intro Tok
    cases sendOk with
    | false =>
      exact ⟨⟨ESP8266_ERROR, memset0 MAX_BUFFER_SIZE, 0⟩, fun _ _ => rfl, Nat.zero_le _,
        Or.inr rfl⟩
    | true =>
      obtain ⟨r, h1, h2, -, h4⟩ := send_at_loop_on_returns Tok recv MAX_BUFFER_SIZE
        (memset0 MAX_BUFFER_SIZE) 0 0 (by simp) (by decide)
      exact ⟨r, fun fuel hf => by simpa [send_at_cmd_on] using h1 fuel hf, h2, h4⟩
  refine ⟨main Token, ?_, ?_⟩
  · obtain ⟨r, h1, -, h3⟩ := main AT_OK_STRING
    exact ⟨r.status, fun fuel hf => by simp [esp8266_close_connection, h1 fuel hf], h3⟩
  · intro response fuel hf
    cases sendOk with
    | false => rfl
    | true =>
      have := send_at_loop_on_transport_of Token response fuel (memset0 MAX_BUFFER_SIZE) 0 0
        (transport_of response) (fun i => by simp [transport_of]) hf
      simpa [send_at_cmd_on, send_at_cmd] using this

/-- C15, on the transport that delivers the byte `'A'` for ever: `send_at_cmd`
returns within 8192 iterations. -/
theorem send_at_cmd_on_returns_witness :
    ∃ r : AtOutcome, send_at_cmd_on 8192 [] true AT_OK_STRING (fun _ => some 65) = some r ∧
      r.idx ≤ MAX_BUFFER_SIZE :=
  (send_at_cmd_on_returns [] AT_OK_STRING true (fun _ => some 65) 0).1.elim
    (fun r h => ⟨r, h.1 8192 (by decide), h.2.1⟩)

/-- C16. The accumulator is cleared at the start of a transaction: for any two
contents of `rx_buffer` on entry `send_at_cmd` gives the same status, the same
`idx`, the same final `rx_buffer` and leaves the same bytes unread; the final
`rx_buffer` holds the `idx` bytes consumed followed by zeros, nothing of what it
held before. -/
theorem send_at_cmd_initial_rx_buffer_irrelevant (rx_buffer1 rx_buffer2 Token response : List Nat)
    (sendOk : Bool) :
    send_at_cmd rx_buffer1 sendOk Token response = send_at_cmd rx_buffer2 sendOk Token response ∧
    (send_at_cmd rx_buffer1 sendOk Token response).idx ≤ MAX_BUFFER_SIZE ∧
    (send_at_cmd rx_buffer1 sendOk Token response).rx_buffer =
      padded (response.take (send_at_cmd rx_buffer1 sendOk Token response).idx) ∧
    (send_at_cmd rx_buffer1 sendOk Token response).rest =
      response.drop (send_at_cmd rx_buffer1 sendOk Token response).idx := by
  refine ⟨rfl, ?_⟩
  cases sendOk with
  | false =>
    refine ⟨Nat.zero_le _, ?_, ?_⟩
    · simp [send_at_cmd, memset0_eq_padded]
    · simp [send_at_cmd]
  | true =>
    rw [send_at_cmd_eq_loop]
    obtain ⟨m, -, hm2, h1, h2, h3⟩ := send_at_loop_shape Token response [] (by decide)
    simp only [List.length_nil, Nat.zero_add, List.nil_append] at hm2 h1 h2 h3
    rw [h2]
    exact ⟨hm2, h1, h3⟩

/-- C17. On the reply `"OK\r\n"` the transaction succeeds and the accumulator has no
`"STAIP,"`: `strstr` returns `NULL`, and `Token += 7` followed by
`strstr(Token, "\"")` reads through a pointer made from it; the extraction is not
defined. The same happens when `"STAIP,"` is there with no double quote after it,
as in `"STAIP,OK\r\n"`, where `*temp = '\0'` writes through `NULL`. -/
theorem esp8266_get_ip_undefined_without_STAIP :
    (send_at_cmd [] true AT_OK_STRING [79, 75, 13, 10]).status = ESP8266_OK ∧
    esp8266_get_ip [] true [79, 75, 13, 10] = none ∧
    (send_at_cmd [] true AT_OK_STRING [83, 84, 65, 73, 80, 44, 79, 75, 13, 10]).status
      = ESP8266_OK ∧
    esp8266_get_ip [] true [83, 84, 65, 73, 80, 44, 79, 75, 13, 10] = none := by
  refine ⟨by decide, by decide, by decide, by decide⟩

/-- The reply `+CIFSR:STAIP,"1.2.3.4"` CR LF `OK` CR LF: the address extracted is
`"1.2.3.4"`. -/
theorem esp8266_get_ip_example :
    esp8266_get_ip [] true
      [43, 67, 73, 70, 83, 82, 58, 83, 84, 65, 73, 80, 44, 34, 49, 46, 50, 46, 51, 46, 52, 34,
       13, 10, 79, 75, 13, 10] =
      some (ESP8266_OK, [49, 46, 50, 46, 51, 46, 52]) := by
  decide

/-- When the transaction fails `esp8266_get_ip` returns its status and `IpAddress`
is `"0.0.0.0"`. -/
theorem esp8266_get_ip_failure (rx_buffer response : List Nat) (sendOk : Bool)
    (h : (send_at_cmd rx_buffer sendOk AT_OK_STRING response).status ≠ ESP8266_OK) :
    esp8266_get_ip rx_buffer sendOk response =
      some ((send_at_cmd rx_buffer sendOk AT_OK_STRING response).status,
        [48, 46, 48, 46, 48, 46, 48]) := by
  simp [esp8266_get_ip, h]

/-- C18. No data outside a payload ends the call successfully: on a stream of fewer
than `MAX_BUFFER_SIZE` bytes that contains neither `"+IPD,"` nor `"ERROR\r\n"`, then
no data, `esp8266_recv_data` returns (any fuel above the length of the stream is
enough) `ESP8266_OK` with `*retLength = 0`, nothing stored, the stream consumed. -/
theorem esp8266_recv_data_no_frame (t : List Nat) (Length fuel : Nat)
    (hlen : t.length < MAX_BUFFER_SIZE) (hipd : ¬ AT_IPD_STRING <:+: t)
    (herr : ¬ AT_ERROR_STRING <:+: t) (hfuel : t.length < fuel) :
    esp8266_recv_data fuel Length t = some ⟨ESP8266_OK, [], 0, [], false⟩ := by
  obtain ⟨f, rfl⟩ : ∃ f, fuel = (f + 1) + t.length := ⟨fuel - t.length - 1, by omega⟩
  obtain ⟨s1, e1, hnc1, -, -, hin1, hB1, hrl1, hov1⟩ :=
    recv_loop_idle_run t (f + 1) (recv_init t) [] [] rfl padded_nil.symm rfl
      (by simpa using hlen) (by simp [recv_init])
      (fun j _ => by
        simpa using strstr_found_take_false t AT_IPD_STRING j
          (by rw [cstr_AT_IPD_STRING]; exact hipd))
      (fun j _ => by
        simpa using strstr_found_take_false t AT_ERROR_STRING j
          (by rw [cstr_AT_ERROR_STRING]; exact herr))
  have e2 := recv_loop_nodata f s1 hin1 hnc1
  simp only [esp8266_recv_data, recv_data]
  rw [e1, e2]
  simp [hin1, hB1, hrl1, hov1, recv_init]

/-- C18, at the stream `"+IP"`, a partial frame prefix. -/
theorem esp8266_recv_data_no_frame_witness :
    esp8266_recv_data 4 16 [43, 73, 80] = some ⟨ESP8266_OK, [], 0, [], false⟩ :=
  esp8266_recv_data_no_frame [43, 73, 80] 16 4 (by decide) (by decide) (by decide) (by decide)

/-- C19, as stated, fails: `esp8266_io_init`, an operation of the application thread,
sets `tail` to 0; after a receive event reporting 5 bytes `tail` is 5 before the
call and 0 after it. -/
theorem esp8266_io_init_resets_tail :
    (io_run [IoEvent.rx_event 5] (io_start [])).2.wifi_rx_buffer.tail = 5 ∧
    (esp8266_io_init true (io_run [IoEvent.rx_event 5] (io_start [])).2).2.wifi_rx_buffer.tail
      = 0 := by
  decide

/-- C19, amended. `esp8266_io_recv` never changes `tail` (nor `data`, nor the
`tail_pos` of the callback), whatever the length asked, and
`HAL_UARTEx_RxEventCallback` never changes `head` (nor `data`); `esp8266_io_init`
sets both cursors to 0 and leaves `data` and `tail_pos` as they are. -/
theorem io_cursor_ownership (st : IoState) (L size : Nat) (isWifi halOk : Bool) :
    ((esp8266_io_recv L st).2.wifi_rx_buffer.tail = st.wifi_rx_buffer.tail ∧
      (esp8266_io_recv L st).2.wifi_rx_buffer.data = st.wifi_rx_buffer.data ∧
      (esp8266_io_recv L st).2.tail_pos = st.tail_pos) ∧
    ((HAL_UARTEx_RxEventCallback isWifi size st).wifi_rx_buffer.head = st.wifi_rx_buffer.head ∧
      (HAL_UARTEx_RxEventCallback isWifi size st).wifi_rx_buffer.data
        = st.wifi_rx_buffer.data) ∧
    (esp8266_io_init halOk st).2 = ⟨⟨st.wifi_rx_buffer.data, 0, 0⟩, st.tail_pos⟩ := by
  refine ⟨esp8266_io_recv_tail L st, HAL_UARTEx_RxEventCallback_head isWifi size st, ?_⟩
  cases halOk <;> rfl

/-- C20. The header `"+IPD,1460:"` (and already `"+IPD,1000:"`): the four digits
fill `LengthString` and the colon is stored at index 4, outside the 4-byte array;
the call is flagged as having overrun `LengthString`. -/
theorem recv_data_length_string_overrun :
    (esp8266_recv_data 100 1460 [43, 73, 80, 68, 44, 49, 52, 54, 48, 58]).map
        (fun r => r.overrun) = some true ∧
    (esp8266_recv_data 100 1460 [43, 73, 80, 68, 44, 49, 48, 48, 48, 58]).map
        (fun r => r.overrun) = some true ∧
    (read_length 5 ⟨[49, 52, 54, 48, 58], [], 0, memset0 4, 0, 0, false, 44, [], 0, false⟩).map
        (fun s => (s.LengthString, s.i, s.overrun)) = some ([49, 52, 54, 48], 5, true) := by
  refine ⟨by decide, by decide, by decide⟩

/-- C21, as stated, fails: with the token `"\r\n"` and the response `"\0ERROR\r\n"`
the accumulated bytes contain neither token after 7 bytes and both after 8, fewer
than 8192, yet `send_at_cmd` returns `ESP8266_ERROR`: the NUL hides both from
`strstr`. -/
theorem send_at_cmd_tie_behind_nul :
    [13, 10] <:+: [0, 69, 82, 82, 79, 82, 13, 10].take 8 ∧
    AT_ERROR_STRING <:+: [0, 69, 82, 82, 79, 82, 13, 10].take 8 ∧
    ¬ [13, 10] <:+: [0, 69, 82, 82, 79, 82, 13, 10].take 7 ∧
    ¬ AT_ERROR_STRING <:+: [0, 69, 82, 82, 79, 82, 13, 10].take 7 ∧
    (send_at_cmd [] true [13, 10] [0, 69, 82, 82, 79, 82, 13, 10]).status = ESP8266_ERROR := by
  refine ⟨by decide, by decide, by decide, by decide, by decide⟩

/-- C21, amended. Tie-break in favour of success: when byte `k <= 8191` is the first
after which the accumulated bytes contain the success token or `"ERROR\r\n"`, they
then contain both, and there is no NUL among them, `send_at_cmd` returns
`ESP8266_OK`, having consumed exactly those `k` bytes. -/
theorem send_at_cmd_tie_break (rx_buffer Token response : List Nat) (k : Nat)
    (hk : k < MAX_BUFFER_SIZE) (hnul : ∀ c ∈ response.take k, c ≠ 0)
    (hT : cstr Token <:+: response.take k) (hE : AT_ERROR_STRING <:+: response.take k)
    (hfirst : ∀ j, 1 ≤ j → j < k →
      ¬ cstr Token <:+: response.take j ∧ ¬ AT_ERROR_STRING <:+: response.take j) :
    send_at_cmd rx_buffer true Token response =
      ⟨ESP8266_OK, padded (response.take k), k, response.drop k⟩ := by
  have hk7 : 7 ≤ (response.take k).length := by
    have := hE.length_le
    simpa [AT_ERROR_STRING] using this
  have hk1 : 1 ≤ k := by
    have := List.length_take_le k response
    omega
  have hkl : k ≤ response.length := by
    by_contra hcon
    have hlt : response.length < k := by omega
    have htk : response.take k = response := List.take_of_length_le (by omega)
    rw [htk] at hE hk7
    apply (hfirst response.length (by omega) hlt).2
    rw [List.take_of_length_le (le_refl _)]
    exact hE
  have h := send_at_loop_token_at Token response [] k hk1 hkl (by simpa using hk)
    (by
      rw [List.nil_append, strstr_found_iff, cstr_of_no_zero _ hnul]
      exact hT)
    (fun j hj1 hj2 => by
      have hf := hfirst j hj1 hj2
      refine ⟨?_, ?_⟩
      · rw [List.nil_append, strstr_found_eq_false_iff]
        exact fun hc => hf.1 (hc.trans (cstr_initial _).isInfix)
      · rw [List.nil_append, strstr_found_eq_false_iff, cstr_AT_ERROR_STRING]
        exact fun hc => hf.2 (hc.trans (cstr_initial _).isInfix))
  rw [send_at_cmd_eq_loop]
  simpa using h

/-- C21 amended, at the token `"\r\n"` with the response `"ERROR\r\n"`: the seventh
byte completes both and the call returns `ESP8266_OK`. -/
theorem send_at_cmd_tie_break_witness :
    send_at_cmd [] true [13, 10] [69, 82, 82, 79, 82, 13, 10] =
      ⟨ESP8266_OK, padded ([69, 82, 82, 79, 82, 13, 10].take 7), 7,
        [69, 82, 82, 79, 82, 13, 10].drop 7⟩ :=
  send_at_cmd_tie_break [] [13, 10] [69, 82, 82, 79, 82, 13, 10] 7
    (by decide) (by decide) (by decide) (by decide) (by decide)

/-- C22. A successful transaction consumes the minimal prefix: for a non-empty token
and a response free of NUL bytes, when `send_at_cmd` returns `ESP8266_OK` its `idx`,
the number of bytes consumed, is the least `k` such that the first `k` bytes contain
the token; it is at most 8191, `rx_buffer` holds those bytes followed by zeros and
the bytes after them are left unread. -/
theorem send_at_cmd_ok_minimal (rx_buffer Token response : List Nat) (sendOk : Bool)
    (htok : cstr Token ≠ []) (hnul : ∀ c ∈ response, c ≠ 0)
    (hok : (send_at_cmd rx_buffer sendOk Token response).status = ESP8266_OK) :
    cstr Token <:+: response.take (send_at_cmd rx_buffer sendOk Token response).idx ∧
    (∀ j, j < (send_at_cmd rx_buffer sendOk Token response).idx →
      ¬ cstr Token <:+: response.take j) ∧
    (send_at_cmd rx_buffer sendOk Token response).idx ≤ 8191 ∧
    (send_at_cmd rx_buffer sendOk Token response).rx_buffer =
      padded (response.take (send_at_cmd rx_buffer sendOk Token response).idx) ∧
    (send_at_cmd rx_buffer sendOk Token response).rest =
      response.drop (send_at_cmd rx_buffer sendOk Token response).idx := by
  cases sendOk with
  | false => simp [send_at_cmd] at hok
  | true =>
    rw [send_at_cmd_eq_loop] at hok ⊢
    obtain ⟨m, hm1, hm2, hm3, heq, hfound, hmin⟩ :=
      send_at_loop_ok_inv Token response [] (by decide) hok
    have hM : MAX_BUFFER_SIZE = 8192 := rfl
    simp only [List.length_nil, Nat.zero_add, List.nil_append] at hm3 heq hfound hmin
    have hnz : ∀ j, ∀ c ∈ response.take j, c ≠ 0 :=
      fun j c hc => hnul c (List.mem_of_mem_take hc)
    have heq' : send_at_loop Token (padded []) 0 response =
        ⟨ESP8266_OK, padded (response.take m), m, response.drop m⟩ := heq
    rw [heq']
    refine ⟨?_, ?_, by simp only; omega, rfl, rfl⟩
    · rw [strstr_found_iff, cstr_of_no_zero _ (hnz m)] at hfound
      exact hfound
    · intro j hj hc
      simp only at hj
      rcases Nat.eq_zero_or_pos j with h0 | hpos
      · subst h0
        simp only [List.take_zero, List.infix_nil] at hc
        exact htok hc
      · have := hmin j hpos hj
        rw [strstr_found_eq_false_iff, cstr_of_no_zero _ (hnz j)] at this
        exact this hc

/-- C22, at the response `"abOK\r\nxx"` with the token `"OK\r\n"`: six bytes are
consumed. -/
theorem send_at_cmd_ok_minimal_witness :
    (send_at_cmd [] true AT_OK_STRING [97, 98, 79, 75, 13, 10, 120, 120]).idx ≤ 8191 ∧
    (send_at_cmd [] true AT_OK_STRING [97, 98, 79, 75, 13, 10, 120, 120]).rest =
      [97, 98, 79, 75, 13, 10, 120, 120].drop
        (send_at_cmd [] true AT_OK_STRING [97, 98, 79, 75, 13, 10, 120, 120]).idx :=
  ⟨(send_at_cmd_ok_minimal [] AT_OK_STRING [97, 98, 79, 75, 13, 10, 120, 120] true
      (by decide) (by decide) (by decide)).2.2.1,
   (send_at_cmd_ok_minimal [] AT_OK_STRING [97, 98, 79, 75, 13, 10, 120, 120] true
      (by decide) (by decide) (by decide)).2.2.2.2⟩

/-- C23. `catch_incoming_message` is the receive loop of `send_at_cmd`: called on a
buffer of `maxBufferLength = MAX_BUFFER_SIZE` bytes it returns the status, consumes
the number of bytes, leaves unread the bytes and leaves in its buffer the content
that `send_at_cmd` (its write succeeding) returns, consumes, leaves unread and
leaves in `rx_buffer` for the same token and stream; and it returns `ESP8266_OK`
only when `strstr` finds the token in the bytes accumulated. -/
theorem catch_incoming_message_eq_send_at_cmd (messageBuffer rx_buffer token stream : List Nat)
    (hlen : messageBuffer.length = MAX_BUFFER_SIZE) :
    (catch_incoming_message messageBuffer MAX_BUFFER_SIZE token stream).status =
      (send_at_cmd rx_buffer true token stream).status ∧
    (catch_incoming_message messageBuffer MAX_BUFFER_SIZE token stream).idx =
      (send_at_cmd rx_buffer true token stream).idx ∧
    (catch_incoming_message messageBuffer MAX_BUFFER_SIZE token stream).messageBuffer =
      (send_at_cmd rx_buffer true token stream).rx_buffer ∧
    (catch_incoming_message messageBuffer MAX_BUFFER_SIZE token stream).rest =
      (send_at_cmd rx_buffer true token stream).rest ∧
    ((catch_incoming_message messageBuffer MAX_BUFFER_SIZE token stream).status = ESP8266_OK →
      strstr_found (catch_incoming_message messageBuffer MAX_BUFFER_SIZE token stream).messageBuffer
        token = true) := by
  have hms : memset messageBuffer 0 MAX_BUFFER_SIZE = padded [] := by
    rw [memset, List.drop_of_length_le (by omega), List.append_nil]
    simp [padded]
  have h := catch_loop_eq_send_at_loop token stream (padded []) 0
  rw [send_at_cmd_eq_loop, ← h]
  simp only [catch_incoming_message, hms, true_and]
  exact catch_loop_ok_found token MAX_BUFFER_SIZE stream (padded []) 0

/-- C23, at a buffer of 8192 bytes `7`, the token `"OK\r\n"` and the stream
`"abOK\r\nxx"`. -/
theorem catch_incoming_message_eq_send_at_cmd_witness :
    (catch_incoming_message (List.replicate 8192 7) MAX_BUFFER_SIZE AT_OK_STRING
        [97, 98, 79, 75, 13, 10, 120, 120]).status =
      (send_at_cmd [] true AT_OK_STRING [97, 98, 79, 75, 13, 10, 120, 120]).status ∧
    (catch_incoming_message (List.replicate 8192 7) MAX_BUFFER_SIZE AT_OK_STRING
        [97, 98, 79, 75, 13, 10, 120, 120]).messageBuffer =
      (send_at_cmd [] true AT_OK_STRING [97, 98, 79, 75, 13, 10, 120, 120]).rx_buffer :=
  ⟨(catch_incoming_message_eq_send_at_cmd (List.replicate 8192 7) [] AT_OK_STRING
      [97, 98, 79, 75, 13, 10, 120, 120] (by rw [List.length_replicate]; rfl)).1,
   (catch_incoming_message_eq_send_at_cmd (List.replicate 8192 7) [] AT_OK_STRING
      [97, 98, 79, 75, 13, 10, 120, 120] (by rw [List.length_replicate]; rfl)).2.2.1⟩

/-- C24. `esp8266_send_data` with a `NULL` buffer returns `ESP8266_OK`, hands nothing
to `esp8266_io_send`, consumes no byte of the transport and leaves `rx_buffer` as it
is; with a buffer, when the `AT+CIPSEND` transaction does not return `ESP8266_OK`,
it returns `ESP8266_ERROR` and the only run of bytes handed to `esp8266_io_send` is
the command, taken from `at_cmd`: the payload is never written. -/
theorem esp8266_send_data_null_or_no_prompt (Length : Nat) (rx_buffer response : List Nat)
    (promptSendOk dataSendOk : Bool) :
    esp8266_send_data none Length rx_buffer promptSendOk dataSendOk response =
      ⟨ESP8266_OK, [], rx_buffer, response⟩ ∧
    (∀ data : List Nat,
      (send_at_cmd rx_buffer promptSendOk AT_SEND_PROMPT_STRING response).status ≠ ESP8266_OK →
      (esp8266_send_data (some data) Length rx_buffer promptSendOk dataSendOk response).status
        = ESP8266_ERROR ∧
      (esp8266_send_data (some data) Length rx_buffer promptSendOk dataSendOk response).writes
        = [(sprintf_at_cmd (format_CIPSEND Length)).1.take
            (cstr (sprintf_at_cmd (format_CIPSEND Length)).1).length] ∧
      (esp8266_send_data (some data) Length rx_buffer promptSendOk dataSendOk response).rest
        = (send_at_cmd rx_buffer promptSendOk AT_SEND_PROMPT_STRING response).rest) := by
  refine ⟨rfl, ?_⟩
  intro data h
  simp [esp8266_send_data, h]

/-- C24, with the payload `"hello"` when the module answers `"ERROR\r\n"` to
`AT+CIPSEND=5`: the call returns `ESP8266_ERROR` and only the command is written. -/
theorem esp8266_send_data_null_or_no_prompt_witness :
    (esp8266_send_data (some [104, 101, 108, 108, 111]) 5 [] true true
        AT_ERROR_STRING).status = ESP8266_ERROR ∧
    (esp8266_send_data (some [104, 101, 108, 108, 111]) 5 [] true true
        AT_ERROR_STRING).writes =
      [(sprintf_at_cmd (format_CIPSEND 5)).1.take
        (cstr (sprintf_at_cmd (format_CIPSEND 5)).1).length] :=
  ⟨((esp8266_send_data_null_or_no_prompt 5 [] AT_ERROR_STRING true true).2
      [104, 101, 108, 108, 111] (by decide)).1,
   ((esp8266_send_data_null_or_no_prompt 5 [] AT_ERROR_STRING true true).2
      [104, 101, 108, 108, 111] (by decide)).2.1⟩

/-- C25. Accumulator bounds in the token-matching loops. For `maxBufferLength >= 1`
and a message buffer of at least that many bytes, every store of
`catch_incoming_message` is at an index below `maxBufferLength`, every `strstr`
search runs on a buffer holding a NUL at index `idx < maxBufferLength`, one byte is
consumed per iteration and `idx`, their number, is at most `maxBufferLength`. The
same holds for the loop of `send_at_cmd` with `rx_buffer` and `MAX_BUFFER_SIZE`. -/
theorem token_loops_stay_in_bounds (token messageBuffer stream : List Nat)
    (maxBufferLength : Nat) (hmax : 1 ≤ maxBufferLength)
    (hbuf : maxBufferLength ≤ messageBuffer.length) :
    ((∀ p ∈ (catch_incoming_message messageBuffer maxBufferLength token stream).probes,
        p.store < maxBufferLength ∧
        ∀ b i, p.search = some (b, i) → i < maxBufferLength ∧ b[i]? = some 0) ∧
      (catch_incoming_message messageBuffer maxBufferLength token stream).idx =
        (catch_incoming_message messageBuffer maxBufferLength token stream).probes.length ∧
      (catch_incoming_message messageBuffer maxBufferLength token stream).idx
        ≤ maxBufferLength ∧
      (catch_incoming_message messageBuffer maxBufferLength token stream).idx +
        (catch_incoming_message messageBuffer maxBufferLength token stream).rest.length
        = stream.length ∧
      (catch_incoming_message messageBuffer maxBufferLength token stream).messageBuffer.length
        = messageBuffer.length) ∧
    ((∀ p ∈ send_at_probes token (memset0 MAX_BUFFER_SIZE) 0 stream,
        p.store < MAX_BUFFER_SIZE ∧
        ∀ b i, p.search = some (b, i) → i < MAX_BUFFER_SIZE ∧ b[i]? = some 0) ∧
      (send_at_cmd messageBuffer true token stream).idx =
        (send_at_probes token (memset0 MAX_BUFFER_SIZE) 0 stream).length ∧
      (send_at_cmd messageBuffer true token stream).idx ≤ MAX_BUFFER_SIZE ∧
      (send_at_cmd messageBuffer true token stream).idx +
        (send_at_cmd messageBuffer true token stream).rest.length = stream.length) := by
  constructor
  · obtain ⟨h1, h2, h3, h4, h5⟩ :=
      catch_loop_bounds token maxBufferLength (messageBuffer.drop maxBufferLength) stream []
        (by simpa using hmax)
    simp only [List.length_nil, Nat.zero_add, List.nil_append] at h1 h2 h3 h4 h5
    simp only [catch_incoming_message, memset_eq_filled]
    refine ⟨h1, h2, h3, by rw [h2]; exact h4, ?_⟩
    have hle := List.length_take_le
      (catch_loop token maxBufferLength (filled maxBufferLength [] (messageBuffer.drop
        maxBufferLength)) 0 stream).probes.length stream
    rw [h5, filled_length _ _ _ (le_trans hle (by rw [← h2]; exact h3)), List.length_drop]
    omega
  · obtain ⟨h1, h2, h3, h4, -⟩ :=
      catch_loop_bounds token MAX_BUFFER_SIZE [] stream [] (by decide)
    simp only [List.length_nil, Nat.zero_add, ← padded_eq_filled, catch_loop_probes] at h1 h2 h3 h4
    have he := catch_loop_eq_send_at_loop token stream (padded []) 0
    rw [memset0_eq_padded, send_at_cmd_eq_loop, ← he]
    simp only
    exact ⟨h1, h2, h3, by rw [h2]; exact h4⟩

/-- C25, at a buffer of three bytes, `maxBufferLength = 3`, the token `"OK"` and the
stream `"abOKcd"`: three bytes are consumed, stored at indices 0, 1 and 2. -/
theorem token_loops_stay_in_bounds_witness :
    (catch_incoming_message [1, 2, 3] 3 [79, 75] [97, 98, 79, 75, 99, 100]).idx ≤ 3 ∧
    ∀ p ∈ (catch_incoming_message [1, 2, 3] 3 [79, 75] [97, 98, 79, 75, 99, 100]).probes,
      p.store < 3 ∧ ∀ b i, p.search = some (b, i) → i < 3 ∧ b[i]? = some 0 :=
  ⟨(token_loops_stay_in_bounds [79, 75] [1, 2, 3] [97, 98, 79, 75, 99, 100] 3
      (by decide) (by decide)).1.2.2.1,
   (token_loops_stay_in_bounds [79, 75] [1, 2, 3] [97, 98, 79, 75, 99, 100] 3
      (by decide) (by decide)).1.1⟩

/-- C26. `*retLength` counts the stored payload: whenever `esp8266_recv_data` returns,
with `ESP8266_OK` or with `ESP8266_ERROR`, `*retLength` is the number of bytes stored
in the output buffer (as a `uint32_t`; the number itself on a stream of fewer than
`2^32` bytes), and the bytes stored, at offsets `0 .. *retLength - 1`, are bytes of
the consumed part of the stream in their order of arrival. The entry of the function
sets `*retLength` to 0 whatever it held. -/
theorem esp8266_recv_data_retLength (fuel Length : Nat) (input : List Nat) (r : RecvResult)
    (h : esp8266_recv_data fuel Length input = some r) :
    (r.status = ESP8266_OK ∨ r.status = ESP8266_ERROR) ∧
    r.retLength = r.Buffer.length % 4294967296 ∧
    (input.length < 4294967296 → r.retLength = r.Buffer.length) ∧
    (∃ consumed, input = consumed ++ r.rest ∧ r.Buffer.Sublist consumed) ∧
    (∀ (retLength : Nat) (rx_buffer : List Nat),
      (recv_entry retLength rx_buffer input).retLength = 0 ∧
      (rx_buffer.length = MAX_BUFFER_SIZE →
        recv_entry retLength rx_buffer input = recv_init input)) := by
  simp only [esp8266_recv_data, recv_data, Option.map_eq_some'] at h
  obtain ⟨⟨st, s'⟩, hloop, hr⟩ := h
  obtain ⟨⟨hrl, pre, hpre, hsub⟩, hst⟩ :=
    recv_loop_stored_ok input fuel (recv_init input) s' st hloop (stored_ok_recv_init input)
  subst hr
  simp only
  refine ⟨hst, hrl, ?_, ⟨pre, hpre, hsub⟩, ?_⟩
  · intro hlt
    rw [hrl]
    apply Nat.mod_eq_of_lt
    have h1 := hsub.length_le
    have h2 : pre.length ≤ input.length := by rw [hpre]; simp
    omega
  · intro retLength rx_buffer
    exact ⟨rfl, recv_entry_eq_recv_init retLength rx_buffer input⟩

/-- C26, at the stream `"+IPD,10:abcd"`, on which the call returns `ESP8266_ERROR`
after storing four bytes: `*retLength` is 4. -/
theorem esp8266_recv_data_retLength_witness :
    esp8266_recv_data 100 10 [43, 73, 80, 68, 44, 49, 48, 58, 97, 98, 99, 100] =
      some ⟨ESP8266_ERROR, [97, 98, 99, 100], 4, [], false⟩ ∧
    (⟨ESP8266_ERROR, [97, 98, 99, 100], 4, [], false⟩ : RecvResult).retLength =
      (⟨ESP8266_ERROR, [97, 98, 99, 100], 4, [], false⟩ : RecvResult).Buffer.length
        % 4294967296 :=
  ⟨by decide,
   (esp8266_recv_data_retLength 100 10 [43, 73, 80, 68, 44, 49, 48, 58, 97, 98, 99, 100]
    ⟨ESP8266_ERROR, [97, 98, 99, 100], 4, [], false⟩ (by decide)).2.1⟩

end Esp8266
